import Mathlib

/-!
ALF `Ic.cxx`: the IC register-poke protocol.

A shallow embedding of `src/src/Ic.cxx` (namespace `o2::alf`).

* The register window `mBar2` is a device outside the program.  Every access
  the code makes through `barWrite` / `barRead` is appended to a log kept in the
  session state; the value a read returns is given by a response function of
  the accesses made so far and of the register index, so a read may return any
  32-bit value whatsoever.
* The lock session `mLlaSession` is likewise represented by the log of its
  `start()` / `stop()` calls.
* A C++ exception is a value of `Exn`; a function that may throw returns
  `Except Exn α` together with the state reached when it returned or threw.
* `uint32_t` values are natural numbers below `2 ^ 32`; `int` values are
  integers.  `std::this_thread::sleep_for` has no effect on the state and is
  left out.
-/

namespace o2.alf

/-! ## Registers -/

/-- A register of the ReadoutCard library (`roc::Register`): a byte address, and
the index of the 32-bit word at that address, which is what `barWrite` and
`barRead` are given. -/
structure Register where
  address : Nat
deriving DecidableEq

/-- Word index of a register: the byte address divided by four. -/
def Register.index (r : Register) : Nat := r.address / 4

namespace ic_regs

def IC_BASE : Register := ⟨0x00f00000⟩
def IC_WR_DATA : Register := ⟨IC_BASE.address + 0x20⟩
def IC_WR_CFG : Register := ⟨IC_BASE.address + 0x24⟩
def IC_WR_CMD : Register := ⟨IC_BASE.address + 0x28⟩
def IC_RD_DATA : Register := ⟨IC_BASE.address + 0x30⟩

end ic_regs

/-! ## Data model -/

/-- One access to the register window, as seen from outside: a write of a value
to a word index, or a read of a word index together with the value it gave. -/
inductive BarEvent where
  | write (index value : Nat)
  | read (index value : Nat)
deriving DecidableEq

/-- One call on the lock session. -/
inductive LlaEvent where
  | start
  | stop
deriving DecidableEq

/-- Serial identifier of a card (`roc::SerialId`); `getEndpoint()` is the field
`endpoint`. -/
structure SerialId where
  serial : Int
  endpoint : Int
deriving DecidableEq

/-- Card types of the ReadoutCard library. -/
inductive CardType where
  | Unknown
  | Crorc
  | Cru
deriving DecidableEq

/-- The link descriptor `AlfLink`.  Its `bar` member is the handle of the
register window, which the embedding keeps in the session state. -/
structure AlfLink where
  alfId : String
  serialId : SerialId
  linkId : Int
  rawLinkId : Int
  cardType : CardType
deriving DecidableEq

/-- The three kinds `Ic::Operation` that the source names. -/
inductive Operation where
  | Read
  | Write
  | Error
deriving DecidableEq

/-- Request payload `Ic::IcData`. -/
structure IcData where
  address : Nat
  data : Nat
deriving DecidableEq

/-- The payload `Ic::Data`, a variant holding an `IcData` request, an `IcOut`
result word, or a `std::string`; these are the three alternatives the source
takes out of it with `boost::get`. -/
inductive Data where
  | icData (d : IcData)
  | icOut (v : Nat)
  | str (s : String)
deriving DecidableEq

/-- What the source can throw: an `IcException` carrying its
`ErrorInfo::Message` (the text `e.what()` gives back), or the `boost::bad_get`
of a `boost::get` applied to a variant holding another alternative. -/
inductive Exn where
  | IcException (message : String)
  | bad_get
deriving DecidableEq

/-- Everything the source takes from outside `Ic.cxx`: the device behind the
register window, the slow-control registers `sc_regs::*` and the constant
`CRU_NUM_LINKS` of the ReadoutCard library, the card lookup, the way a
serial id is printed, and `Util::formatValue`. -/
structure Env where
  /-- Raw value the device gives for a read of the word `index`, after the
  accesses `history`. -/
  readRegister : (history : List BarEvent) → (index : Nat) → Nat
  SC_RESET : Register
  SC_LINK : Register
  SWT_MON : Register
  CRU_NUM_LINKS : Int
  /-- Serial id of the card `roc::findCard` finds for a card id. -/
  findCard : Nat → SerialId
  /-- Text of a serial id in a formatted message. -/
  showSerialId : SerialId → String
  /-- The text `Util::formatValue` gives for a result word. -/
  formatValue : Nat → String

/-- State of an `Ic` session: the link descriptor `mLink`, the accesses made
to `mBar2` so far (oldest first) and the calls made on `mLlaSession` so far. -/
structure Ic where
  mLink : AlfLink
  bar : List BarEvent
  lla : List LlaEvent
deriving DecidableEq

/-- Conversion of an `int` to `uint32_t`. -/
def toUInt32 (i : Int) : Nat := (i % 4294967296).toNat

/-- `boost::get<IcData>(data)`. -/
def getIcData : Data → Except Exn IcData
  | Data.icData d => Except.ok d
  | _ => Except.error Exn.bad_get

/-- `boost::get<IcOut>(data)`. -/
def getIcOut : Data → Except Exn Nat
  | Data.icOut v => Except.ok v
  | _ => Except.error Exn.bad_get

/-- `boost::get<std::string>(data)`. -/
def getString : Data → Except Exn String
  | Data.str t => Except.ok t
  | _ => Except.error Exn.bad_get

/-- Eight lower-case hexadecimal digits of a 32-bit word (`%08x`). -/
def hex8 (n : Nat) : String :=
  String.mk ((List.range 8).reverse.map (fun i => Nat.digitChar (n / 16 ^ i % 16)))

namespace Ic

/-! ## Register access -/

/-- `Ic::barWrite`. -/
def barWrite (index data : Nat) (s : Ic) : Ic :=
  { s with bar := s.bar ++ [BarEvent.write index data] }

/-- `Ic::barRead`: the device answers with a 32-bit value. -/
def barRead (env : Env) (index : Nat) (s : Ic) : Nat × Ic :=
  let v := env.readRegister s.bar index % 4294967296
  (v, { s with bar := s.bar ++ [BarEvent.read index v] })

/-- `mLlaSession->start()`. -/
def llaStart (s : Ic) : Ic := { s with lla := s.lla ++ [LlaEvent.start] }

/-- `mLlaSession->stop()`. -/
def llaStop (s : Ic) : Ic := { s with lla := s.lla ++ [LlaEvent.stop] }

/-! ## Channel selection -/

/-- `Ic::setChannel`. -/
def setChannel (env : Env) (gbtChannel : Int) (s : Ic) : Ic :=
  let link1 : AlfLink := { s.mLink with linkId := gbtChannel }
  let link2 : AlfLink := { link1 with rawLinkId := link1.serialId.endpoint * 12 + gbtChannel }
  barWrite env.SC_LINK.index (toUInt32 link2.rawLinkId) { s with mLink := link2 }

/-- `Ic::checkChannelSet`. -/
def checkChannelSet (env : Env) (s : Ic) : Except Exn Unit × Ic :=
  if s.mLink.linkId = -1 then
    (Except.error (Exn.IcException "No IC channel selected"), s)
  else
    let r := barRead env env.SWT_MON.index s
    let channel : Int := (((r.1 >>> 8) &&& 0xff : Nat) : Int)
    if channel ≠ r.2.mLink.rawLinkId then
      (Except.ok (), setChannel env r.2.mLink.linkId r.2)
    else
      (Except.ok (), r.2)

/-- `Ic::scReset`. -/
def scReset (env : Env) (s : Ic) : Ic :=
  barWrite env.SC_RESET.index 0x0 (barWrite env.SC_RESET.index 0x1 s)

/-! ## Single transactions -/

/-- `Ic::read(uint32_t address)`. -/
def read (env : Env) (address : Nat) (s : Ic) : Except Exn Nat × Ic :=
  match checkChannelSet env s with
  | (Except.error e, s0) => (Except.error e, s0)
  | (Except.ok _, s0) =>
    let address := address &&& 0xffff
    let data := 0
    let data := (data + address) % 4294967296
    -- Write to the FIFO
    let s1 := barWrite ic_regs.IC_WR_DATA.index data s0
    let s2 := barWrite ic_regs.IC_WR_CMD.index 0x1 s1
    let s3 := barWrite ic_regs.IC_WR_CMD.index 0x0 s2
    -- Execute the RD State Machine
    let s4 := barWrite ic_regs.IC_WR_CMD.index 0x8 s3
    let s5 := barWrite ic_regs.IC_WR_CMD.index 0x0 s4
    -- Pulse the READ
    let s6 := barWrite ic_regs.IC_WR_CMD.index 0x2 s5
    let s7 := barWrite ic_regs.IC_WR_CMD.index 0x0 s6
    -- Read the status of the FIFO
    let r := barRead env ic_regs.IC_RD_DATA.index s7
    let retData := r.1 &&& 0xff
    (Except.ok retData, r.2)

/-- `Ic::write(uint32_t address, uint32_t data)`. -/
def write (env : Env) (address data : Nat) (s : Ic) : Except Exn Nat × Ic :=
  match checkChannelSet env s with
  | (Except.error e, s0) => (Except.error e, s0)
  | (Except.ok _, s0) =>
    let echo := data
    let address := address &&& 0xffff
    let data := ((data &&& 0xff) <<< 16) % 4294967296
    let data := (data + address) % 4294967296
    -- Write to the FIFO
    let s1 := barWrite ic_regs.IC_WR_DATA.index data s0
    let s2 := barWrite ic_regs.IC_WR_CMD.index 0x1 s1
    let s3 := barWrite ic_regs.IC_WR_CMD.index 0x0 s2
    -- Execute the WR State Machine
    let s4 := barWrite ic_regs.IC_WR_CMD.index 0x4 s3
    let s5 := barWrite ic_regs.IC_WR_CMD.index 0x0 s4
    -- Read the status of the FIFO
    let r := barRead env ic_regs.IC_RD_DATA.index s5
    let empty := (r.1 >>> 16) &&& 0x1
    let ready := (r.1 >>> 31) &&& 0x1
    if empty ≠ 0x0 ∨ ready ≠ 0x1 then
      (Except.error (Exn.IcException "IC WRITE was unsuccesful"), r.2)
    else
      (Except.ok echo, r.2)

/-- Modelled from the spec: the overload `Ic::read(IcData)` declared in
`Alf/Ic.h`, which is not among the sources; the executor invokes the
transactor's read with the address from the payload. -/
def readIcData (env : Env) (icData : IcData) (s : Ic) : Except Exn Nat × Ic :=
  read env icData.address s

/-- Modelled from the spec: the overload `Ic::write(IcData)` declared in
`Alf/Ic.h`, which is not among the sources; the executor invokes the
transactor's write with the address and the data from the payload. -/
def writeIcData (env : Env) (icData : IcData) (s : Ic) : Except Exn Nat × Ic :=
  write env icData.address icData.data s

/-! ## Sequences -/

/-- The text built with `boost::format` in the handler of `executeSequence`:
`"ic_regs::IC_SEQUENCE address=0x%08x data=0x%08x serialId=%s link=%d, error='%s'"`. -/
def sequenceMessage (env : Env) (icData : IcData) (link : AlfLink) (what : String) : String :=
  "ic_regs::IC_SEQUENCE address=0x" ++ hex8 icData.address ++ " data=0x" ++ hex8 icData.data
    ++ " serialId=" ++ env.showSerialId link.serialId ++ " link=" ++ toString link.linkId
    ++ ", error='" ++ what ++ "'"

/-- The `try` block of one iteration of the loop in `Ic::executeSequence`. -/
def tryOperation (env : Env) (operation : Operation) (data : Data) (s : Ic) :
    Except Exn Nat × Ic :=
  if operation = Operation.Read then
    match getIcData data with
    | Except.error e => (Except.error e, s)
    | Except.ok icData => readIcData env icData s
  else if operation = Operation.Write then
    match getIcData data with
    | Except.error e => (Except.error e, s)
    | Except.ok icData => writeIcData env icData s
  else
    (Except.error (Exn.IcException "IC operation type unknown"), s)

/-- The `for` loop of `Ic::executeSequence`, entered with the operations still
to process and the results `ret` pushed so far. -/
def executeLoop (env : Env) :
    List (Operation × Data) → List (Operation × Data) → Ic →
      Except Exn (List (Operation × Data)) × Ic
  | [], ret, s => (Except.ok ret, s)
  | (operation, data) :: rest, ret, s =>
    match tryOperation env operation data s with
    | (Except.ok out, s1) => executeLoop env rest (ret ++ [(operation, Data.icOut out)]) s1
    | (Except.error (Exn.IcException what), s1) =>
      -- catch (const IcException& e)
      match getIcData data with
      | Except.error e => (Except.error e, s1)
      | Except.ok icData =>
        let meaningfulMessage := sequenceMessage env icData s1.mLink what
        (Except.ok (ret ++ [(Operation.Error, Data.str meaningfulMessage)]), s1)
    | (Except.error e, s1) => (Except.error e, s1)

/-- `Ic::executeSequence`. -/
def executeSequence (env : Env) (ops : List (Operation × Data)) (lock : Bool) (s : Ic) :
    Except Exn (List (Operation × Data)) × Ic :=
  let s0 := if lock then llaStart s else s
  match checkChannelSet env s0 with
  | (Except.error (Exn.IcException what), s1) =>
    (Except.ok [(Operation.Error, Data.str what)], s1)
  | (Except.error e, s1) => (Except.error e, s1)
  | (Except.ok _, s1) =>
    match executeLoop env ops [] s1 with
    | (Except.error e, s2) => (Except.error e, s2)
    | (Except.ok ret, s2) => (Except.ok ret, if lock then llaStop s2 else s2)

/-- The `for` loop of `Ic::writeSequence` over the list `executeSequence`
returned, entered with the text written to `resultBuffer` so far.  The call
of the logger has no effect on the state and is left out. -/
def writeSequenceLoop (env : Env) : List (Operation × Data) → String → Except Exn String
  | [], resultBuffer => Except.ok resultBuffer
  | (operation, data) :: rest, resultBuffer =>
    if operation = Operation.Read ∨ operation = Operation.Write then
      match getIcOut data with
      | Except.error e => Except.error e
      | Except.ok out =>
        writeSequenceLoop env rest (resultBuffer ++ env.formatValue out ++ "\n")
    else if operation = Operation.Error then
      match getString data with
      | Except.error e => Except.error e
      | Except.ok errMessage => Except.error (Exn.IcException (resultBuffer ++ errMessage))
    else
      writeSequenceLoop env rest resultBuffer

/-- `Ic::writeSequence`. -/
def writeSequence (env : Env) (ops : List (Operation × Data)) (lock : Bool) (s : Ic) :
    Except Exn String × Ic :=
  match executeSequence env ops lock s with
  | (Except.error e, s1) => (Except.error e, s1)
  | (Except.ok out, s1) => (writeSequenceLoop env out "", s1)

/-- `Ic::writeGbtI2c`. -/
def writeGbtI2c (data : Nat) (s : Ic) : Ic :=
  barWrite ic_regs.IC_WR_CFG.index data s

/-! ## Construction -/

/-- `Ic::init`, run on the object under construction, whose member `mLink`
has whatever content it had before. -/
def init (env : Env) (cardId : Nat) (linkId : Int) (s : Ic) : Except Exn Unit × Ic :=
  if s.mLink.linkId ≥ env.CRU_NUM_LINKS then
    (Except.error (Exn.IcException "Maximum link number exceeded"), s)
  else
    let card := env.findCard cardId
    let link : AlfLink :=
      { alfId := "DDT"
        serialId := card
        linkId := linkId
        rawLinkId := card.endpoint * 12 + linkId
        cardType := CardType.Cru }
    -- Set CFG to 0x3 by default
    (Except.ok (), barWrite ic_regs.IC_WR_CFG.index 0x3 { s with mLink := link })

/-- The constructor `Ic::Ic(AlfLink link, std::shared_ptr<lla::Session>)`. -/
def ofLink (env : Env) (link : AlfLink) : Ic :=
  barWrite ic_regs.IC_WR_CFG.index 0x3 (scReset env { mLink := link, bar := [], lla := [] })

/-- The constructor `Ic::Ic(cardId, linkId)`; `mLink0` is the content of the
member `mLink` when the body starts, which no initializer sets. -/
def ofCard (env : Env) (cardId : Nat) (linkId : Int) (mLink0 : AlfLink) : Except Exn Unit × Ic :=
  init env cardId linkId { mLink := mLink0, bar := [], lla := [] }

end Ic

/-! ## A simulated register file -/

/-- Number of reads among the accesses. -/
def countReads : List BarEvent → Nat
  | [] => 0
  | BarEvent.read _ _ :: rest => countReads rest + 1
  | BarEvent.write _ _ :: rest => countReads rest

/-- A simulated device that answers the successive reads with the values of a
list (and with zero afterwards), and a card of serial 1041, endpoint 0. -/
def simEnv (values : List Nat) : Env where
  readRegister := fun history _ => values.getD (countReads history) 0
  SC_RESET := ⟨0x00f00064⟩
  SC_LINK := ⟨0x00f00078⟩
  SWT_MON := ⟨0x00f0005c⟩
  CRU_NUM_LINKS := 24
  findCard := fun _ => ⟨1041, 0⟩
  showSerialId := fun sid => toString sid.serial ++ ":" ++ toString sid.endpoint
  formatValue := fun value => "0x" ++ hex8 value

/-- A link of the simulated card with the given logical link id. -/
def simLink (linkId : Int) : AlfLink where
  alfId := "DDT"
  serialId := ⟨1041, 0⟩
  linkId := linkId
  rawLinkId := 0 * 12 + linkId
  cardType := CardType.Cru

/-- A session on the simulated card before any access. -/
def simIc (linkId : Int) : Ic where
  mLink := simLink linkId
  bar := []
  lla := []

/-- The sequence `[Write(0x10, 0xAB), Read(0x10), Write(0x20, 0xFF)]`. -/
def writeReadWrite : List (Operation × Data) :=
  [(Operation.Write, Data.icData ⟨0x10, 0xAB⟩), (Operation.Read, Data.icData ⟨0x10, 0⟩),
   (Operation.Write, Data.icData ⟨0x20, 0xFF⟩)]

/-! ## Notions used to state the properties -/

/-- The text of the successful entries of a result list: for each entry
holding a result word, in order, `formatValue` of the word followed by a
newline. -/
def formattedLines (env : Env) : List (Operation × Data) → String
  | [] => ""
  | (_, Data.icOut value) :: rest => env.formatValue value ++ "\n" ++ formattedLines env rest
  | _ :: rest => formattedLines env rest

/-- The value of the last write to the word `index` among some accesses, if
there is one. -/
def lastWrite (index : Nat) : List BarEvent → Option Nat
  | [] => none
  | BarEvent.write i value :: rest =>
    match lastWrite index rest with
    | some later => some later
    | none => if i = index then some value else none
  | BarEvent.read _ _ :: rest => lastWrite index rest

/-- The registers the source names are distinct words: `SC_LINK` is none of
`IC_WR_CMD`, `IC_WR_CFG` and `SC_RESET`, and `SC_RESET` is neither `IC_WR_DATA`
nor `IC_WR_CMD`. -/
def Env.registersDistinct (env : Env) : Prop :=
  env.SC_LINK.index ≠ ic_regs.IC_WR_CMD.index ∧
  env.SC_LINK.index ≠ ic_regs.IC_WR_CFG.index ∧
  env.SC_LINK.index ≠ env.SC_RESET.index ∧
  env.SC_RESET.index ≠ ic_regs.IC_WR_DATA.index ∧
  env.SC_RESET.index ≠ ic_regs.IC_WR_CMD.index

/-- The frame of a transaction from the state `s` to the state `t`: the link
id is the same, the register log has only grown, every new write goes to
`SC_LINK`, `IC_WR_DATA` or `IC_WR_CMD` and to neither `IC_WR_CFG` nor
`SC_RESET`, and the last new write to `IC_WR_CMD`, if there is one, is of 0. -/
def Ic.framed (env : Env) (s t : Ic) : Prop :=
  t.mLink.linkId = s.mLink.linkId ∧
  ∃ events, t.bar = s.bar ++ events ∧
    (∀ index value, BarEvent.write index value ∈ events →
      (index = env.SC_LINK.index ∨ index = ic_regs.IC_WR_DATA.index ∨
        index = ic_regs.IC_WR_CMD.index) ∧
      index ≠ ic_regs.IC_WR_CFG.index ∧ index ≠ env.SC_RESET.index) ∧
    (lastWrite ic_regs.IC_WR_CMD.index events = none ∨
      lastWrite ic_regs.IC_WR_CMD.index events = some 0)

/-! ## Basic facts -/

namespace Ic

/-- The two flags `write` decodes from the status word are its bits 16 and 31. -/
theorem status_flag (v n : Nat) :
    ((v >>> n) &&& 1 = 0 ↔ v.testBit n = false) ∧ ((v >>> n) &&& 1 = 1 ↔ v.testBit n = true) := by
  have h : (v >>> n) &&& 1 = (v >>> n) % 2 := Nat.and_one_is_mod _
  rw [h, Nat.testBit_to_div_mod, Nat.shiftRight_eq_div_pow]
  have := Nat.mod_two_eq_zero_or_one (v / 2 ^ n)
  constructor <;> constructor <;> intro h' <;> simp_all

theorem checkChannelSet_unset (env : Env) (s : Ic) (h : s.mLink.linkId = -1) :
    checkChannelSet env s = (Except.error (Exn.IcException "No IC channel selected"), s) := by
  simp [checkChannelSet, h]

theorem checkChannelSet_set (env : Env) (s : Ic) (h : s.mLink.linkId ≠ -1) :
    ∃ s0, checkChannelSet env s = (Except.ok (), s0) ∧ s0.mLink.linkId = s.mLink.linkId ∧
      s0.lla = s.lla := by
  unfold checkChannelSet
  rw [if_neg h]
  dsimp only
  split
  · exact ⟨_, rfl, by simp [setChannel, barWrite, barRead], by simp [setChannel, barWrite, barRead]⟩
  · exact ⟨_, rfl, by simp [barRead], by simp [barRead]⟩

/-- The channel check leaves the serial id, the link id and the lock calls as
they were, and only appends to the register log. -/
theorem checkChannelSet_frame (env : Env) (s : Ic) :
    (checkChannelSet env s).2.mLink.serialId = s.mLink.serialId ∧
    (checkChannelSet env s).2.mLink.linkId = s.mLink.linkId ∧
    (checkChannelSet env s).2.lla = s.lla ∧
    ∃ events, (checkChannelSet env s).2.bar = s.bar ++ events := by
  unfold checkChannelSet
  split
  · exact ⟨rfl, rfl, rfl, [], by simp⟩
  · dsimp only
    split
    · exact ⟨by simp [setChannel, barWrite, barRead], by simp [setChannel, barWrite, barRead],
        by simp [setChannel, barWrite, barRead], _, by
          simp only [setChannel, barWrite, barRead, List.append_assoc]
          rfl⟩
    · exact ⟨by simp [barRead], by simp [barRead], by simp [barRead], _, by
        simp only [barRead]
        rfl⟩

theorem checkChannelSet_ok_iff (env : Env) (s : Ic) :
    (checkChannelSet env s).1 = Except.ok () ↔ s.mLink.linkId ≠ -1 := by
  constructor
  · intro h hun
    rw [checkChannelSet_unset env s hun] at h
    cases h
  · intro h
    obtain ⟨s0, h0, -⟩ := checkChannelSet_set env s h
    rw [h0]

/-- The word `write` pushes fits in 32 bits, so the two additions of the
source do not wrap. -/
theorem write_word_no_wrap (address data : Nat) :
    (((data &&& 0xff) <<< 16) % 4294967296 + (address &&& 0xffff)) % 4294967296 =
      ((data &&& 0xff) <<< 16) + (address &&& 0xffff) := by
  have hd : data &&& 0xff ≤ 0xff := Nat.and_le_right
  have ha : address &&& 0xffff ≤ 0xffff := Nat.and_le_right
  have hs : (data &&& 0xff) <<< 16 = (data &&& 0xff) * 65536 := by
    rw [Nat.shiftLeft_eq]
  rw [hs]
  omega

/-- What `write` does once the channel check has passed. -/
theorem write_of_selected (env : Env) (address data : Nat) (s s0 : Ic)
    (h0 : checkChannelSet env s = (Except.ok (), s0)) :
    ∃ status : Nat,
      status = env.readRegister (s0.bar ++
          [BarEvent.write ic_regs.IC_WR_DATA.index
             (((data &&& 0xff) <<< 16) + (address &&& 0xffff)),
           BarEvent.write ic_regs.IC_WR_CMD.index 0x1,
           BarEvent.write ic_regs.IC_WR_CMD.index 0x0,
           BarEvent.write ic_regs.IC_WR_CMD.index 0x4,
           BarEvent.write ic_regs.IC_WR_CMD.index 0x0]) ic_regs.IC_RD_DATA.index % 4294967296 ∧
      (write env address data s).2 =
        { s0 with bar := s0.bar ++
          [BarEvent.write ic_regs.IC_WR_DATA.index
             (((data &&& 0xff) <<< 16) + (address &&& 0xffff)),
           BarEvent.write ic_regs.IC_WR_CMD.index 0x1,
           BarEvent.write ic_regs.IC_WR_CMD.index 0x0,
           BarEvent.write ic_regs.IC_WR_CMD.index 0x4,
           BarEvent.write ic_regs.IC_WR_CMD.index 0x0,
           BarEvent.read ic_regs.IC_RD_DATA.index status] } ∧
      (write env address data s).1 =
        (if status.testBit 16 = false ∧ status.testBit 31 = true then Except.ok data
         else Except.error (Exn.IcException "IC WRITE was unsuccesful")) := by
  refine ⟨_, rfl, ?_, ?_⟩
  · simp only [write, h0, barWrite, barRead, write_word_no_wrap]
    split <;> simp
  · simp only [write, h0, barWrite, barRead, List.append_assoc, List.cons_append,
      List.nil_append, write_word_no_wrap]
    generalize env.readRegister _ _ % 4294967296 = status
    have h16 := (status_flag status 16).1
    have h31 := (status_flag status 31).2
    by_cases hb : status.testBit 16 = false ∧ status.testBit 31 = true
    · rw [if_pos hb, if_neg]
      rw [not_or, not_not, not_not]
      exact ⟨h16.2 hb.1, h31.2 hb.2⟩
    · rw [if_neg hb, if_pos]
      by_contra hc
      rw [not_or, not_not, not_not] at hc
      exact hb ⟨h16.1 hc.1, h31.1 hc.2⟩

/-- Claim C1.  In every state in which the channel check succeeds, the last
access of `write` is a read of `IC_RD_DATA`; with `status` the word it gave,
`write` returns normally if and only if bit 16 of `status` is 0 and bit 31 is
1, and otherwise throws an `IcException`.  The outcome is a function of these
two bits alone. -/
theorem write_returns_iff_status (env : Env) (address data : Nat) (s : Ic)
    (hsel : (checkChannelSet env s).1 = Except.ok ()) :
    ∃ status : Nat,
      (write env address data s).2.bar.getLast? =
        some (BarEvent.read ic_regs.IC_RD_DATA.index status) ∧
      ((∃ echo, (write env address data s).1 = Except.ok echo) ↔
        (status.testBit 16 = false ∧ status.testBit 31 = true)) ∧
      (¬ (status.testBit 16 = false ∧ status.testBit 31 = true) →
        ∃ message, (write env address data s).1 = Except.error (Exn.IcException message)) ∧
      (write env address data s).1 =
        (if status.testBit 16 = false ∧ status.testBit 31 = true then Except.ok data
         else Except.error (Exn.IcException "IC WRITE was unsuccesful")) := by
  obtain ⟨s0, h0, -⟩ := checkChannelSet_set env s ((checkChannelSet_ok_iff env s).1 hsel)
  obtain ⟨status, -, hst, hres⟩ := write_of_selected env address data s s0 h0
  refine ⟨status, ?_, ?_, ?_, hres⟩
  · rw [hst]
    simp
  · rw [hres]
    constructor
    · rintro ⟨echo, he⟩
      by_contra hc
      rw [if_neg hc] at he
      cases he
    · intro hb
      exact ⟨data, by rw [if_pos hb]⟩
  · intro hb
    exact ⟨_, by rw [hres, if_neg hb]⟩

/-- The hypothesis of `write_returns_iff_status` holds on the simulated card
with link 3 selected, where the status word `0x80000000` lets the write return. -/
theorem write_returns_iff_status_witness :
    (checkChannelSet (simEnv [0x300, 0x80000000]) (simIc 3)).1 = Except.ok () ∧
    ∃ status : Nat,
      (write (simEnv [0x300, 0x80000000]) 0x10 0xAB (simIc 3)).2.bar.getLast? =
        some (BarEvent.read ic_regs.IC_RD_DATA.index status) ∧
      ((∃ echo, (write (simEnv [0x300, 0x80000000]) 0x10 0xAB (simIc 3)).1 = Except.ok echo) ↔
        (status.testBit 16 = false ∧ status.testBit 31 = true)) ∧
      (¬ (status.testBit 16 = false ∧ status.testBit 31 = true) →
        ∃ message, (write (simEnv [0x300, 0x80000000]) 0x10 0xAB (simIc 3)).1 =
          Except.error (Exn.IcException message)) ∧
      (write (simEnv [0x300, 0x80000000]) 0x10 0xAB (simIc 3)).1 =
        (if status.testBit 16 = false ∧ status.testBit 31 = true then Except.ok 0xAB
         else Except.error (Exn.IcException "IC WRITE was unsuccesful")) :=
  ⟨rfl, write_returns_iff_status (simEnv [0x300, 0x80000000]) 0x10 0xAB (simIc 3) rfl⟩

/-- What `read` does once the channel check has passed. -/
theorem read_of_selected (env : Env) (address : Nat) (s s0 : Ic)
    (h0 : checkChannelSet env s = (Except.ok (), s0)) :
    ∃ status : Nat,
      read env address s =
        (Except.ok (status &&& 0xff),
          { s0 with bar := s0.bar ++
            [BarEvent.write ic_regs.IC_WR_DATA.index (address &&& 0xffff),
             BarEvent.write ic_regs.IC_WR_CMD.index 0x1,
             BarEvent.write ic_regs.IC_WR_CMD.index 0x0,
             BarEvent.write ic_regs.IC_WR_CMD.index 0x8,
             BarEvent.write ic_regs.IC_WR_CMD.index 0x0,
             BarEvent.write ic_regs.IC_WR_CMD.index 0x2,
             BarEvent.write ic_regs.IC_WR_CMD.index 0x0,
             BarEvent.read ic_regs.IC_RD_DATA.index status] }) := by
  have hlt : address &&& 0xffff < 4294967296 :=
    lt_of_le_of_lt Nat.and_le_right (by norm_num)
  refine ⟨env.readRegister (s0.bar ++
      [BarEvent.write ic_regs.IC_WR_DATA.index (address &&& 0xffff),
       BarEvent.write ic_regs.IC_WR_CMD.index 0x1,
       BarEvent.write ic_regs.IC_WR_CMD.index 0x0,
       BarEvent.write ic_regs.IC_WR_CMD.index 0x8,
       BarEvent.write ic_regs.IC_WR_CMD.index 0x0,
       BarEvent.write ic_regs.IC_WR_CMD.index 0x2,
       BarEvent.write ic_regs.IC_WR_CMD.index 0x0]) ic_regs.IC_RD_DATA.index % 4294967296, ?_⟩
  simp only [read, h0, barWrite, barRead, List.append_assoc, List.cons_append,
    List.nil_append, Nat.zero_add, Nat.mod_eq_of_lt hlt]

/-- A transaction on a link that is not set stops at the channel check. -/
theorem read_unset (env : Env) (address : Nat) (s : Ic) (h : s.mLink.linkId = -1) :
    read env address s = (Except.error (Exn.IcException "No IC channel selected"), s) := by
  simp only [read, checkChannelSet_unset env s h]

theorem write_unset (env : Env) (address data : Nat) (s : Ic) (h : s.mLink.linkId = -1) :
    write env address data s =
      (Except.error (Exn.IcException "No IC channel selected"), s) := by
  simp only [write, checkChannelSet_unset env s h]

/-- Claim C2.  Whenever `write` of a value `d` returns, the value it returns
is `d` itself, not `d &&& 0xff`; this holds for every `d`, so for every 32-bit
one. -/
theorem write_echo_exact (env : Env) (address d echo : Nat) (s : Ic)
    (hok : (write env address d s).1 = Except.ok echo) : echo = d := by
  have hsel : s.mLink.linkId ≠ -1 := by
    intro hun
    rw [write_unset env address d s hun] at hok
    cases hok
  obtain ⟨s0, h0, -⟩ := checkChannelSet_set env s hsel
  obtain ⟨status, -, -, hres⟩ := write_of_selected env address d s s0 h0
  rw [hres] at hok
  split at hok
  · cases hok
    rfl
  · cases hok

/-- On the simulated card the write of `0x1FF` returns, and echoes `0x1FF`. -/
theorem write_echo_exact_witness :
    (write (simEnv [0x300, 0x80000000]) 0x10 0x1FF (simIc 3)).1 = Except.ok 0x1FF ∧
      (0x1FF : Nat) ≠ 0x1FF &&& 0xff ∧ (0x1FF : Nat) = 0x1FF :=
  ⟨rfl, by decide,
    write_echo_exact (simEnv [0x300, 0x80000000]) 0x10 0x1FF 0x1FF (simIc 3) rfl⟩

/-- Claim C6.  On a link whose `linkId` is -1, `checkChannelSet`, `read` and
`write` each throw the `IcException` "No IC channel selected" and leave the
session state as it was: no register read and no register write is made. -/
theorem unset_link_fails_without_access (env : Env) (s : Ic) (h : s.mLink.linkId = -1) :
    checkChannelSet env s = (Except.error (Exn.IcException "No IC channel selected"), s) ∧
    (∀ address, read env address s =
      (Except.error (Exn.IcException "No IC channel selected"), s)) ∧
    (∀ address data, write env address data s =
      (Except.error (Exn.IcException "No IC channel selected"), s)) ∧
    (checkChannelSet env s).2.bar = s.bar ∧
    (∀ address, (read env address s).2.bar = s.bar) ∧
    (∀ address data, (write env address data s).2.bar = s.bar) :=
  ⟨checkChannelSet_unset env s h, fun a => read_unset env a s h,
    fun a d => write_unset env a d s h,
    by rw [checkChannelSet_unset env s h],
    fun a => by rw [read_unset env a s h],
    fun a d => by rw [write_unset env a d s h]⟩

/-- The simulated session with link id -1 has made no access after a failed
channel check. -/
theorem unset_link_fails_without_access_witness :
    (simIc (-1)).mLink.linkId = -1 ∧
    (checkChannelSet (simEnv [0x300]) (simIc (-1))).2.bar = [] :=
  ⟨rfl, (unset_link_fails_without_access (simEnv [0x300]) (simIc (-1)) rfl).2.2.2.1⟩

/-- Claim C7.  On a link whose `linkId` is not -1, `checkChannelSet` makes one
read, of `SWT_MON`; with `m` the value read, it then makes one write, to
`SC_LINK`, when `(m >>> 8) &&& 0xff` differs from the link's `rawLinkId`, and
no write when the two are equal.  So a write is made if and only if the field
differs. -/
theorem checkChannelSet_corrective_write (env : Env) (s : Ic) (h : s.mLink.linkId ≠ -1) :
    ∃ m : Nat, m = env.readRegister s.bar env.SWT_MON.index % 4294967296 ∧
      ((((m >>> 8) &&& 0xff : Nat) : Int) ≠ s.mLink.rawLinkId →
        ∃ v, (checkChannelSet env s).2.bar =
          s.bar ++ [BarEvent.read env.SWT_MON.index m, BarEvent.write env.SC_LINK.index v]) ∧
      ((((m >>> 8) &&& 0xff : Nat) : Int) = s.mLink.rawLinkId →
        (checkChannelSet env s).2.bar = s.bar ++ [BarEvent.read env.SWT_MON.index m]) ∧
      ((∃ v, BarEvent.write env.SC_LINK.index v ∈
            (checkChannelSet env s).2.bar.drop s.bar.length) ↔
        (((m >>> 8) &&& 0xff : Nat) : Int) ≠ s.mLink.rawLinkId) := by
  have hbar : ∀ m : Nat, m = env.readRegister s.bar env.SWT_MON.index % 4294967296 →
      (checkChannelSet env s).2.bar = s.bar ++ BarEvent.read env.SWT_MON.index m ::
        (if (((m >>> 8) &&& 0xff : Nat) : Int) ≠ s.mLink.rawLinkId then
          [BarEvent.write env.SC_LINK.index
            (toUInt32 (s.mLink.serialId.endpoint * 12 + s.mLink.linkId))]
         else []) := by
    intro m hm
    simp only [checkChannelSet, if_neg h, barRead, ← hm]
    split <;> simp [setChannel, barWrite]
  refine ⟨_, rfl, ?_, ?_, ?_⟩
  · intro hne
    exact ⟨_, by rw [hbar _ rfl, if_pos hne]⟩
  · intro heq
    rw [hbar _ rfl, if_neg (not_not.2 heq)]
  · rw [hbar _ rfl, List.drop_left]
    split
    · rename_i hne
      simp [hne]
    · rename_i hne
      simp [hne]

/-- On the simulated card with link 3 selected, a monitor word `0x500` (field
5) makes `checkChannelSet` read once and write the raw link id 3 once. -/
theorem checkChannelSet_corrective_write_witness :
    (simIc 3).mLink.linkId ≠ -1 ∧
    (checkChannelSet (simEnv [0x500]) (simIc 3)).2.bar =
      [BarEvent.read (simEnv [0x500]).SWT_MON.index 0x500,
       BarEvent.write (simEnv [0x500]).SC_LINK.index 3] ∧
    ∃ m : Nat, m = (simEnv [0x500]).readRegister (simIc 3).bar (simEnv [0x500]).SWT_MON.index
        % 4294967296 ∧
      ((((m >>> 8) &&& 0xff : Nat) : Int) ≠ (simIc 3).mLink.rawLinkId →
        ∃ v, (checkChannelSet (simEnv [0x500]) (simIc 3)).2.bar =
          (simIc 3).bar ++ [BarEvent.read (simEnv [0x500]).SWT_MON.index m,
            BarEvent.write (simEnv [0x500]).SC_LINK.index v]) ∧
      ((((m >>> 8) &&& 0xff : Nat) : Int) = (simIc 3).mLink.rawLinkId →
        (checkChannelSet (simEnv [0x500]) (simIc 3)).2.bar =
          (simIc 3).bar ++ [BarEvent.read (simEnv [0x500]).SWT_MON.index m]) ∧
      ((∃ v, BarEvent.write (simEnv [0x500]).SC_LINK.index v ∈
            (checkChannelSet (simEnv [0x500]) (simIc 3)).2.bar.drop (simIc 3).bar.length) ↔
        (((m >>> 8) &&& 0xff : Nat) : Int) ≠ (simIc 3).mLink.rawLinkId) :=
  ⟨by decide, rfl, checkChannelSet_corrective_write (simEnv [0x500]) (simIc 3) (by decide)⟩

/-! ## The sequence loop -/

/-- A read either returns a byte or throws an `IcException`. -/
theorem read_outcome (env : Env) (address : Nat) (s : Ic) :
    (∃ byte, (read env address s).1 = Except.ok byte) ∨
    (∃ message, (read env address s).1 = Except.error (Exn.IcException message)) := by
  by_cases h : s.mLink.linkId = -1
  · exact Or.inr ⟨_, by rw [read_unset env address s h]⟩
  · obtain ⟨s0, h0, -⟩ := checkChannelSet_set env s h
    obtain ⟨status, hr⟩ := read_of_selected env address s s0 h0
    exact Or.inl ⟨_, by rw [hr]⟩

/-- A write either returns its echo or throws an `IcException`. -/
theorem write_outcome (env : Env) (address data : Nat) (s : Ic) :
    (∃ echo, (write env address data s).1 = Except.ok echo) ∨
    (∃ message, (write env address data s).1 = Except.error (Exn.IcException message)) := by
  by_cases h : s.mLink.linkId = -1
  · exact Or.inr ⟨_, by rw [write_unset env address data s h]⟩
  · obtain ⟨s0, h0, -⟩ := checkChannelSet_set env s h
    obtain ⟨status, -, -, hres⟩ := write_of_selected env address data s s0 h0
    rw [hres]
    split
    · exact Or.inl ⟨_, rfl⟩
    · exact Or.inr ⟨_, rfl⟩

/-- With an `IcData` payload the `try` block returns a word, and then the
kind is `Read` or `Write`, or throws an `IcException`; it never throws
`bad_get`. -/
theorem tryOperation_icData (env : Env) (operation : Operation) (d : IcData) (s : Ic) :
    (∃ out, (tryOperation env operation (Data.icData d) s).1 = Except.ok out ∧
        operation ≠ Operation.Error) ∨
    (∃ message, (tryOperation env operation (Data.icData d) s).1 =
        Except.error (Exn.IcException message)) := by
  cases operation
  · rcases read_outcome env d.address s with ⟨b, hb⟩ | ⟨m, hm⟩
    · exact Or.inl ⟨b, by simpa [tryOperation, getIcData, readIcData] using hb, by decide⟩
    · exact Or.inr ⟨m, by simpa [tryOperation, getIcData, readIcData] using hm⟩
  · rcases write_outcome env d.address d.data s with ⟨b, hb⟩ | ⟨m, hm⟩
    · exact Or.inl ⟨b, by simpa [tryOperation, getIcData, writeIcData] using hb, by decide⟩
    · exact Or.inr ⟨m, by simpa [tryOperation, getIcData, writeIcData] using hm⟩
  · exact Or.inr ⟨"IC operation type unknown", by simp [tryOperation]⟩

theorem executeLoop_nil (env : Env) (ret : List (Operation × Data)) (s : Ic) :
    executeLoop env [] ret s = (Except.ok ret, s) := rfl

/-- One iteration whose `try` block returns. -/
theorem executeLoop_cons_ok (env : Env) (operation : Operation) (data : Data)
    (rest ret : List (Operation × Data)) (s s1 : Ic) (out : Nat)
    (h : tryOperation env operation data s = (Except.ok out, s1)) :
    executeLoop env ((operation, data) :: rest) ret s =
      executeLoop env rest (ret ++ [(operation, Data.icOut out)]) s1 := by
  simp only [executeLoop, h]

/-- One iteration whose `try` block throws an `IcException`, on an `IcData`
payload. -/
theorem executeLoop_cons_caught (env : Env) (operation : Operation) (d : IcData)
    (rest ret : List (Operation × Data)) (s s1 : Ic) (what : String)
    (h : tryOperation env operation (Data.icData d) s =
      (Except.error (Exn.IcException what), s1)) :
    executeLoop env ((operation, Data.icData d) :: rest) ret s =
      (Except.ok (ret ++ [(Operation.Error, Data.str (sequenceMessage env d s1.mLink what))]),
        s1) := by
  simp only [executeLoop, h, getIcData]

/-- Shape of a run of the loop on `IcData` payloads.  The loop returns
`ret ++ res`; the first `k` operations each returned a word, pushed under the
operation's own kind; either `k` is the number of operations, or operation `k`
threw an `IcException`, an `Error` entry was pushed for it and the loop was
left, so that the run is the run on the first `k + 1` operations. -/
theorem executeLoop_shape (env : Env) :
    ∀ (ops ret : List (Operation × Data)) (s : Ic),
      (∀ e ∈ ops, ∃ d, e.2 = Data.icData d) →
      ∃ (res : List (Operation × Data)) (k : Nat), k ≤ ops.length ∧
        (executeLoop env ops ret s).1 = Except.ok (ret ++ res) ∧
        List.Forall₂
          (fun o e => e.1 = o.1 ∧ e.1 ≠ Operation.Error ∧ ∃ v, e.2 = Data.icOut v)
          (ops.take k) (res.take k) ∧
        (k = ops.length → res.length = ops.length) ∧
        (k < ops.length → ∃ m, res = res.take k ++ [(Operation.Error, Data.str m)]) ∧
        executeLoop env (ops.take (k + 1)) ret s = executeLoop env ops ret s ∧
        (executeLoop env (ops.take k) ret s).1 = Except.ok (ret ++ res.take k) := by
  intro ops
  induction ops with
  | nil =>
    intro ret s _
    exact ⟨[], 0, le_refl _, by simp [executeLoop_nil], by simp, by simp, by simp, by simp,
      by simp [executeLoop_nil]⟩
  | cons x rest ih =>
    intro ret s hdata
    obtain ⟨operation, data⟩ := x
    obtain ⟨d, hd⟩ := hdata (operation, data) (List.mem_cons_self _ _)
    simp only at hd
    subst hd
    have hrest : ∀ e ∈ rest, ∃ d, e.2 = Data.icData d :=
      fun e he => hdata e (List.mem_cons_of_mem _ he)
    rcases tryOperation_icData env operation d s with ⟨out, hout, hne⟩ | ⟨what, hwhat⟩
    · have hpair : tryOperation env operation (Data.icData d) s =
          (Except.ok out, (tryOperation env operation (Data.icData d) s).2) :=
        Prod.ext hout rfl
      obtain ⟨res, k, hk, hres, hfor, hall, hstop, hcut, hhead⟩ :=
        ih (ret ++ [(operation, Data.icOut out)])
          (tryOperation env operation (Data.icData d) s).2 hrest
      refine ⟨(operation, Data.icOut out) :: res, k + 1, ?_, ?_, ?_, ?_, ?_, ?_, ?_⟩
      · simpa using hk
      · rw [executeLoop_cons_ok env operation _ rest ret s _ out hpair, hres]
        simp
      · simp only [List.take_succ_cons]
        exact List.Forall₂.cons ⟨rfl, hne, out, rfl⟩ hfor
      · intro hlen
        simp only [List.length_cons, add_left_inj] at hlen
        simp [hall hlen]
      · intro hlt
        simp only [List.length_cons, add_lt_add_iff_right] at hlt
        obtain ⟨m, hm⟩ := hstop hlt
        refine ⟨m, ?_⟩
        simp only [List.take_succ_cons, List.cons_append]
        rw [← hm]
      · simp only [List.take_succ_cons]
        rw [executeLoop_cons_ok env operation _ _ ret s _ out hpair,
          executeLoop_cons_ok env operation _ rest ret s _ out hpair]
        exact hcut
      · simp only [List.take_succ_cons]
        rw [executeLoop_cons_ok env operation _ _ ret s _ out hpair, hhead]
        simp
    · have hpair : tryOperation env operation (Data.icData d) s =
          (Except.error (Exn.IcException what),
            (tryOperation env operation (Data.icData d) s).2) :=
        Prod.ext hwhat rfl
      refine ⟨[(Operation.Error, Data.str (sequenceMessage env d
          (tryOperation env operation (Data.icData d) s).2.mLink what))], 0,
        Nat.zero_le _, ?_, ?_, ?_, ?_, ?_, ?_⟩
      · rw [executeLoop_cons_caught env operation d rest ret s _ what hpair]
      · simp
      · intro hlen
        simp at hlen
      · intro _
        exact ⟨_, rfl⟩
      · simp only [Nat.zero_add, List.take_succ_cons, List.take_zero]
        rw [executeLoop_cons_caught env operation d rest ret s _ what hpair,
          executeLoop_cons_caught env operation d [] ret s _ what hpair]
      · simp [executeLoop_nil]

/-- Entries related to operations as successful results have the operations'
kinds, and neither list has an `Error` kind. -/
theorem results_of_forall₂ :
    ∀ (l r : List (Operation × Data)),
      List.Forall₂
        (fun o e => e.1 = o.1 ∧ e.1 ≠ Operation.Error ∧ ∃ v, e.2 = Data.icOut v) l r →
      r.map Prod.fst = l.map Prod.fst ∧ (∀ e ∈ r, e.1 ≠ Operation.Error) ∧
        (∀ o ∈ l, o.1 ≠ Operation.Error) ∧ r.length = l.length := by
  intro l r h
  induction h with
  | nil => simp
  | cons hhead _ ih =>
    obtain ⟨hmap, hr, hl, hlen⟩ := ih
    refine ⟨by simp [hmap, hhead.1], ?_, ?_, by simp [hlen]⟩
    · intro e he
      rcases List.mem_cons.1 he with rfl | he
      · exact hhead.2.1
      · exact hr e he
    · intro o ho
      rcases List.mem_cons.1 ho with rfl | ho
      · rw [← hhead.1]
        exact hhead.2.1
      · exact hl o ho

/-- `executeSequence` when the pre-flight channel check throws. -/
theorem executeSequence_unset (env : Env) (ops : List (Operation × Data)) (lock : Bool)
    (s : Ic) (h : s.mLink.linkId = -1) :
    executeSequence env ops lock s =
      (Except.ok [(Operation.Error, Data.str "No IC channel selected")],
        if lock then llaStart s else s) := by
  have h0 : (if lock then llaStart s else s).mLink.linkId = -1 := by
    cases lock <;> simpa [llaStart] using h
  simp only [executeSequence, checkChannelSet_unset env _ h0]

/-- `executeSequence` when the pre-flight channel check returns. -/
theorem executeSequence_set (env : Env) (ops : List (Operation × Data)) (lock : Bool)
    (s s1 : Ic) (h : checkChannelSet env (if lock then llaStart s else s) = (Except.ok (), s1)) :
    executeSequence env ops lock s =
      match executeLoop env ops [] s1 with
      | (Except.error e, s2) => (Except.error e, s2)
      | (Except.ok ret, s2) => (Except.ok ret, if lock then llaStop s2 else s2) := by
  simp only [executeSequence, h]

/-- The pre-flight check throws exactly on a link that is not set. -/
theorem preflight_fails_iff (env : Env) (lock : Bool) (s : Ic) :
    (∃ e, (checkChannelSet env (if lock then llaStart s else s)).1 = Except.error e) ↔
      s.mLink.linkId = -1 := by
  have hlink : (if lock then llaStart s else s).mLink.linkId = s.mLink.linkId := by
    cases lock <;> simp [llaStart]
  constructor
  · rintro ⟨e, he⟩
    by_contra hne
    have hok := (checkChannelSet_ok_iff env (if lock then llaStart s else s)).2
      (by rw [hlink]; exact hne)
    rw [hok] at he
    cases he
  · intro h
    exact ⟨_, by rw [checkChannelSet_unset env _ (by rw [hlink]; exact h)]⟩

/-- Claim C3, evaluated on the code.  On a session whose link is not set,
`executeSequence` with `lock = true` calls `start()` and returns the single
`Error` entry of the failed pre-flight check without calling `stop()`: the
lock session has seen `start` only. -/
theorem lock_not_released_after_failed_preflight :
    executeSequence (simEnv []) [(Operation.Read, Data.icData ⟨0x10, 0⟩)] true (simIc (-1)) =
      (Except.ok [(Operation.Error, Data.str "No IC channel selected")],
        { mLink := simLink (-1), bar := [], lla := [LlaEvent.start] }) ∧
    (executeSequence (simEnv []) [(Operation.Read, Data.icData ⟨0x10, 0⟩)] true
      (simIc (-1))).2.lla ≠ [LlaEvent.start, LlaEvent.stop] := by
  constructor
  · rfl
  · decide

/-- Claim C9.  If the pre-flight `checkChannelSet` throws, `executeSequence`
returns a list of exactly one entry, `(Error, message)`, and the register log
is as it was before the call: no access is made for any operation of the
batch, whatever the batch is (the empty one included). -/
theorem executeSequence_preflight_failure (env : Env) (ops : List (Operation × Data))
    (lock : Bool) (s : Ic)
    (hfail : ∃ e, (checkChannelSet env (if lock then llaStart s else s)).1 = Except.error e) :
    ∃ message, (executeSequence env ops lock s).1 =
        Except.ok [(Operation.Error, Data.str message)] ∧
      (checkChannelSet env (if lock then llaStart s else s)).1 =
        Except.error (Exn.IcException message) ∧
      (executeSequence env ops lock s).2.bar = s.bar := by
  have h := (preflight_fails_iff env lock s).1 hfail
  have h0 : (if lock then llaStart s else s).mLink.linkId = -1 := by
    cases lock <;> simpa [llaStart] using h
  refine ⟨"No IC channel selected", ?_, ?_, ?_⟩
  · rw [executeSequence_unset env ops lock s h]
  · rw [checkChannelSet_unset env _ h0]
  · rw [executeSequence_unset env ops lock s h]
    cases lock <;> simp [llaStart]

/-- On the simulated session with link id -1 the pre-flight check throws, for
the empty batch too. -/
theorem executeSequence_preflight_failure_witness :
    (∃ e, (checkChannelSet (simEnv [0x300]) (if false then llaStart (simIc (-1))
      else simIc (-1))).1 = Except.error e) ∧
    ∃ message, (executeSequence (simEnv [0x300]) [] false (simIc (-1))).1 =
        Except.ok [(Operation.Error, Data.str message)] ∧
      (checkChannelSet (simEnv [0x300]) (if false then llaStart (simIc (-1))
        else simIc (-1))).1 = Except.error (Exn.IcException message) ∧
      (executeSequence (simEnv [0x300]) [] false (simIc (-1))).2.bar = (simIc (-1)).bar :=
  ⟨⟨_, rfl⟩, executeSequence_preflight_failure (simEnv [0x300]) [] false (simIc (-1)) ⟨_, rfl⟩⟩

/-- Claim C8, evaluated on the code.  `init` compares the member
`mLink.linkId`, as it is when `init` starts, with `CRU_NUM_LINKS`, and not its
argument `linkId`: whether it throws does not depend on the argument.  With 24
links per card, `init` with the argument 24 on a member holding 0 does not
throw, sets the link id to 24 and writes `IC_WR_CFG`; with the argument 0 on a
member holding 24 it throws. -/
theorem init_checks_member_not_argument (env : Env) (cardId : Nat) (linkId : Int) (s : Ic) :
    ((init env cardId linkId s).1 = Except.error (Exn.IcException "Maximum link number exceeded")
      ↔ env.CRU_NUM_LINKS ≤ s.mLink.linkId) ∧
    ((init env cardId linkId s).1 = Except.ok () ↔ s.mLink.linkId < env.CRU_NUM_LINKS) ∧
    (simEnv []).CRU_NUM_LINKS = 24 ∧
    ofCard (simEnv []) 0 24 (simLink 0) =
      (Except.ok (),
        { mLink := simLink 24,
          bar := [BarEvent.write ic_regs.IC_WR_CFG.index 0x3], lla := [] }) ∧
    ofCard (simEnv []) 0 0 (simLink 24) =
      (Except.error (Exn.IcException "Maximum link number exceeded"),
        { mLink := simLink 24, bar := [], lla := [] }) := by
  refine ⟨?_, ?_, rfl, rfl, rfl⟩
  · unfold init
    split
    · rename_i h
      simpa using h
    · rename_i h
      simpa using h
  · unfold init
    split
    · rename_i h
      simpa using h
    · rename_i h
      simpa using h

/-- Claim C10 as stated fails.  An entry of kind `Error` carrying a string is
an entry whose kind is neither `Read` nor `Write`; on it the handler's
`boost::get<IcData>` throws, and `executeSequence` raises `bad_get` instead of
returning a list. -/
theorem executeSequence_raises_on_string_payload :
    (executeSequence (simEnv [0x300]) [(Operation.Error, Data.str "x")] false (simIc 3)).1 =
      Except.error Exn.bad_get := rfl

/-- Claim C10, amended.  On a sequence whose entries all carry an `IcData`
payload, `executeSequence` returns a list and never raises.  Either every
operation returned, and the list has the kinds of the operations and no
`Error` entry, or the list ends with an `(Error, message)` entry and has no
other `Error` entry.  If some entry has a kind that is neither `Read` nor
`Write`, the list ends with an `(Error, message)` entry. -/
theorem executeSequence_returns_on_icData (env : Env) (ops : List (Operation × Data))
    (lock : Bool) (s : Ic) (hdata : ∀ e ∈ ops, ∃ d, e.2 = Data.icData d) :
    ∃ r, (executeSequence env ops lock s).1 = Except.ok r ∧
      ((r.map Prod.fst = ops.map Prod.fst ∧ ∀ e ∈ r, e.1 ≠ Operation.Error) ∨
        (∃ m, r.getLast? = some (Operation.Error, Data.str m) ∧
          ∀ e ∈ r.dropLast, e.1 ≠ Operation.Error)) ∧
      ((∃ e ∈ ops, e.1 ≠ Operation.Read ∧ e.1 ≠ Operation.Write) →
        ∃ m, r.getLast? = some (Operation.Error, Data.str m)) := by
  by_cases hun : s.mLink.linkId = -1
  · rw [executeSequence_unset env ops lock s hun]
    exact ⟨_, rfl, Or.inr ⟨_, rfl, by simp⟩, fun _ => ⟨_, rfl⟩⟩
  · have hne : (if lock then llaStart s else s).mLink.linkId ≠ -1 := by
      cases lock <;> simpa [llaStart] using hun
    obtain ⟨s1, h1, -⟩ := checkChannelSet_set env _ hne
    obtain ⟨res, k, hk, hres, hfor, hall, hstop, -, -⟩ := executeLoop_shape env ops [] s1 hdata
    have hseq : (executeSequence env ops lock s).1 = Except.ok res := by
      rw [executeSequence_set env ops lock s s1 h1]
      rcases hloop : executeLoop env ops [] s1 with ⟨out, s2⟩
      rw [hloop] at hres
      simp only [List.nil_append] at hres
      subst hres
      rfl
    obtain ⟨hmap, hrne, hlne, hlen⟩ := results_of_forall₂ _ _ hfor
    rcases Nat.lt_or_ge k ops.length with hlt | hge
    · obtain ⟨m, hm⟩ := hstop hlt
      have hlast : res.getLast? = some (Operation.Error, Data.str m) := by
        rw [hm]
        simp
      have hdrop : res.dropLast = res.take k := by
        conv_lhs => rw [hm]
        simp
      exact ⟨res, hseq, Or.inr ⟨m, hlast, by rw [hdrop]; exact hrne⟩, fun _ => ⟨m, hlast⟩⟩
    · have hkeq : k = ops.length := Nat.le_antisymm hk hge
      have hrl : res.length = ops.length := hall hkeq
      have hr : res.take k = res := List.take_of_length_le (by omega)
      have ho : ops.take k = ops := List.take_of_length_le (by omega)
      rw [hr, ho] at hmap
      rw [hr] at hrne
      rw [ho] at hlne
      refine ⟨res, hseq, Or.inl ⟨hmap, hrne⟩, ?_⟩
      rintro ⟨e, he, hnr, hnw⟩
      exfalso
      have := hlne e he
      cases hkind : e.1 <;> simp_all

/-- A sequence of `IcData` payloads with an entry of kind `Error` on the
simulated card. -/
theorem executeSequence_returns_on_icData_witness :
    (∀ e ∈ [(Operation.Read, Data.icData ⟨0x10, 0⟩), (Operation.Error, Data.icData ⟨0x20, 1⟩)],
      ∃ d, e.2 = Data.icData d) ∧
    ∃ r, (executeSequence (simEnv [0x300, 0x300, 0x5a])
        [(Operation.Read, Data.icData ⟨0x10, 0⟩), (Operation.Error, Data.icData ⟨0x20, 1⟩)]
        true (simIc 3)).1 = Except.ok r ∧
      ((r.map Prod.fst = [(Operation.Read, Data.icData ⟨0x10, 0⟩),
          (Operation.Error, Data.icData ⟨0x20, 1⟩)].map Prod.fst ∧
          ∀ e ∈ r, e.1 ≠ Operation.Error) ∨
        (∃ m, r.getLast? = some (Operation.Error, Data.str m) ∧
          ∀ e ∈ r.dropLast, e.1 ≠ Operation.Error)) ∧
      ((∃ e ∈ [(Operation.Read, Data.icData ⟨0x10, 0⟩),
          (Operation.Error, Data.icData ⟨0x20, 1⟩)],
          e.1 ≠ Operation.Read ∧ e.1 ≠ Operation.Write) →
        ∃ m, r.getLast? = some (Operation.Error, Data.str m)) :=
  have hdata : ∀ e ∈ [(Operation.Read, Data.icData ⟨0x10, 0⟩),
      (Operation.Error, Data.icData ⟨0x20, 1⟩)], ∃ d, e.2 = Data.icData d := by
    intro e he
    simp only [List.mem_cons, List.mem_singleton, List.not_mem_nil, or_false] at he
    rcases he with rfl | rfl <;> exact ⟨_, rfl⟩
  ⟨hdata, executeSequence_returns_on_icData (simEnv [0x300, 0x300, 0x5a]) _ true (simIc 3) hdata⟩

/-- The list `executeSequence` returns after a passed pre-flight check is the
one the loop returns. -/
theorem executeSequence_set_fst (env : Env) (ops : List (Operation × Data)) (lock : Bool)
    (s s1 : Ic) (h : checkChannelSet env (if lock then llaStart s else s) = (Except.ok (), s1)) :
    (executeSequence env ops lock s).1 = (executeLoop env ops [] s1).1 := by
  rw [executeSequence_set env ops lock s s1 h]
  rcases executeLoop env ops [] s1 with ⟨out, s2⟩
  cases out <;> rfl

/-- Claim C4 as stated fails.  The pre-flight check passes and the first
operation returns; the second, a `Read` whose payload holds an `IcOut`, is the
first that fails, and `executeSequence` raises `bad_get` instead of returning
a list of length 2. -/
theorem executeSequence_raises_at_first_failure :
    (checkChannelSet (simEnv [0x300, 0x300, 0x80000000]) (simIc 3)).1 = Except.ok () ∧
    (executeSequence (simEnv [0x300, 0x300, 0x80000000])
      [(Operation.Write, Data.icData ⟨0x10, 0xAB⟩)] false (simIc 3)).1 =
        Except.ok [(Operation.Write, Data.icOut 0xAB)] ∧
    (executeSequence (simEnv [0x300, 0x300, 0x80000000])
      [(Operation.Write, Data.icData ⟨0x10, 0xAB⟩), (Operation.Read, Data.icOut 0x10)]
      false (simIc 3)).1 = Except.error Exn.bad_get :=
  ⟨rfl, rfl, rfl⟩

/-- Claim C4, amended.  Take a sequence whose entries all carry an `IcData`
payload and whose pre-flight channel check passes.  `executeSequence` returns a
list `r`, and there is an index `k` such that the first `k` entries of `r` are,
in order, word results of the first `k` operations under the operations' own
kinds (`Read` or `Write`), and they are what the run on the first `k`
operations alone returns.  If `k` is the number of operations, none failed: `r`
has the length and the kinds of `ops`.  Otherwise operation `k` is the first
that failed: `r` has length `k + 1`, its last entry is an `(Error, message)`,
and the call returns the same list in the same final state, register log
included, as the call on the first `k + 1` operations, so nothing is done for
an operation after index `k`.  An `Error` entry is never anywhere but last. -/
theorem executeSequence_stops_at_first_failure (env : Env) (ops : List (Operation × Data))
    (lock : Bool) (s : Ic)
    (hpre : (checkChannelSet env (if lock then llaStart s else s)).1 = Except.ok ())
    (hdata : ∀ e ∈ ops, ∃ d, e.2 = Data.icData d) :
    ∃ (r : List (Operation × Data)) (k : Nat),
      (executeSequence env ops lock s).1 = Except.ok r ∧ k ≤ ops.length ∧
      List.Forall₂
        (fun o e => e.1 = o.1 ∧ e.1 ≠ Operation.Error ∧ ∃ v, e.2 = Data.icOut v)
        (ops.take k) (r.take k) ∧
      (executeSequence env (ops.take k) lock s).1 = Except.ok (r.take k) ∧
      (k = ops.length → r.length = ops.length ∧ r.map Prod.fst = ops.map Prod.fst) ∧
      (k < ops.length → r.length = k + 1 ∧
        ∃ m, r = r.take k ++ [(Operation.Error, Data.str m)]) ∧
      executeSequence env (ops.take (k + 1)) lock s = executeSequence env ops lock s ∧
      (∀ e ∈ r.dropLast, e.1 ≠ Operation.Error) := by
  obtain ⟨s1, h1, -⟩ := checkChannelSet_set env _ ((checkChannelSet_ok_iff env _).1 hpre)
  obtain ⟨res, k, hk, hres, hfor, hall, hstop, hcut, hhead⟩ :=
    executeLoop_shape env ops [] s1 hdata
  simp only [List.nil_append] at hres hhead
  obtain ⟨hmap, hrne, -, hlen⟩ := results_of_forall₂ _ _ hfor
  have hlenk : (res.take k).length = k := by
    rw [hlen, List.length_take]
    omega
  refine ⟨res, k, ?_, hk, hfor, ?_, ?_, ?_, ?_, ?_⟩
  · rw [executeSequence_set_fst env ops lock s s1 h1, hres]
  · rw [executeSequence_set_fst env _ lock s s1 h1, hhead]
  · intro hkeq
    have hrl : res.length = ops.length := hall hkeq
    have hr : res.take k = res := List.take_of_length_le (by omega)
    have ho : ops.take k = ops := List.take_of_length_le (by omega)
    rw [hr, ho] at hmap
    exact ⟨hrl, hmap⟩
  · intro hlt
    obtain ⟨m, hm⟩ := hstop hlt
    refine ⟨?_, m, hm⟩
    rw [hm, List.length_append, hlenk]
    rfl
  · rw [executeSequence_set env _ lock s s1 h1, executeSequence_set env ops lock s s1 h1, hcut]
  · rcases Nat.lt_or_ge k ops.length with hlt | hge
    · obtain ⟨m, hm⟩ := hstop hlt
      have hdrop : res.dropLast = res.take k := by
        conv_lhs => rw [hm]
        simp
      rw [hdrop]
      exact hrne
    · have hrl : res.length = ops.length := hall (Nat.le_antisymm hk hge)
      have hr : res.take k = res := List.take_of_length_le (by omega)
      rw [hr] at hrne
      intro e he
      exact hrne e (List.mem_of_mem_dropLast he)

/-- On the simulated card: the first write returns, the second write finds
the status word 0 and fails, the read after it is not run. -/
theorem executeSequence_stops_at_first_failure_witness :
    (checkChannelSet (simEnv [0x300, 0x300, 0x80000000, 0x300, 0x0])
      (if true then llaStart (simIc 3) else simIc 3)).1 = Except.ok () ∧
    (executeSequence (simEnv [0x300, 0x300, 0x80000000, 0x300, 0x0])
      [(Operation.Write, Data.icData ⟨0x10, 0xAB⟩), (Operation.Write, Data.icData ⟨0x11, 0xCD⟩),
        (Operation.Read, Data.icData ⟨0x10, 0⟩)] true (simIc 3)).1 =
      Except.ok [(Operation.Write, Data.icOut 0xAB),
        (Operation.Error, Data.str ("ic_regs::IC_SEQUENCE address=0x00000011 data=0x000000cd "
          ++ "serialId=1041:0 link=3, error='IC WRITE was unsuccesful'"))] ∧
    ∃ (r : List (Operation × Data)) (k : Nat),
      (executeSequence (simEnv [0x300, 0x300, 0x80000000, 0x300, 0x0])
        [(Operation.Write, Data.icData ⟨0x10, 0xAB⟩),
          (Operation.Write, Data.icData ⟨0x11, 0xCD⟩),
          (Operation.Read, Data.icData ⟨0x10, 0⟩)] true (simIc 3)).1 = Except.ok r ∧
      k ≤ 3 ∧ (∀ e ∈ r.dropLast, e.1 ≠ Operation.Error) :=
  have hdata : ∀ e ∈ [(Operation.Write, Data.icData ⟨0x10, 0xAB⟩),
      (Operation.Write, Data.icData ⟨0x11, 0xCD⟩), (Operation.Read, Data.icData ⟨0x10, 0⟩)],
      ∃ d, e.2 = Data.icData d := by
    intro e he
    simp only [List.mem_cons, List.mem_singleton, List.not_mem_nil, or_false] at he
    rcases he with rfl | rfl | rfl <;> exact ⟨_, rfl⟩
  ⟨rfl, rfl,
    match executeSequence_stops_at_first_failure
      (simEnv [0x300, 0x300, 0x80000000, 0x300, 0x0]) _ true (simIc 3) rfl hdata with
    | ⟨r, k, hr, hk, _, _, _, _, _, hlast⟩ => ⟨r, k, hr, hk, hlast⟩⟩

/-- A write leaves the serial id, the link id and the lock calls as they
were, and only appends to the register log. -/
theorem write_frame (env : Env) (address data : Nat) (s : Ic) :
    (write env address data s).2.mLink.serialId = s.mLink.serialId ∧
    (write env address data s).2.mLink.linkId = s.mLink.linkId ∧
    (write env address data s).2.lla = s.lla ∧
    ∃ events, (write env address data s).2.bar = s.bar ++ events := by
  by_cases h : s.mLink.linkId = -1
  · rw [write_unset env address data s h]
    exact ⟨rfl, rfl, rfl, [], by simp⟩
  · obtain ⟨s0, h0, -⟩ := checkChannelSet_set env s h
    obtain ⟨hser, hlink, hlla, events, hbar⟩ := checkChannelSet_frame env s
    rw [h0] at hser hlink hlla hbar
    simp only at hser hlink hlla hbar
    obtain ⟨status, -, hst, -⟩ := write_of_selected env address data s s0 h0
    rw [hst]
    exact ⟨hser, hlink, hlla, _, by simp only [hbar, List.append_assoc]; rfl⟩

/-- A read leaves the serial id, the link id and the lock calls as they were,
and only appends to the register log. -/
theorem read_frame (env : Env) (address : Nat) (s : Ic) :
    (read env address s).2.mLink.serialId = s.mLink.serialId ∧
    (read env address s).2.mLink.linkId = s.mLink.linkId ∧
    (read env address s).2.lla = s.lla ∧
    ∃ events, (read env address s).2.bar = s.bar ++ events := by
  by_cases h : s.mLink.linkId = -1
  · rw [read_unset env address s h]
    exact ⟨rfl, rfl, rfl, [], by simp⟩
  · obtain ⟨s0, h0, -⟩ := checkChannelSet_set env s h
    obtain ⟨hser, hlink, hlla, events, hbar⟩ := checkChannelSet_frame env s
    rw [h0] at hser hlink hlla hbar
    simp only at hser hlink hlla hbar
    obtain ⟨status, hst⟩ := read_of_selected env address s s0 h0
    rw [hst]
    exact ⟨hser, hlink, hlla, _, by simp only [hbar, List.append_assoc]; rfl⟩

/-- The diagnostic text for a failed `Write(0x20, 0xFF)`. -/
theorem sequenceMessage_write_0x20 (env : Env) (link : AlfLink) :
    sequenceMessage env ⟨0x20, 0xFF⟩ link "IC WRITE was unsuccesful" =
      "ic_regs::IC_SEQUENCE address=0x00000020 data=0x000000ff serialId="
        ++ env.showSerialId link.serialId ++ " link=" ++ toString link.linkId
        ++ ", error='IC WRITE was unsuccesful'" := by
  have hhead : "ic_regs::IC_SEQUENCE address=0x00000020 data=0x000000ff serialId=" =
      "ic_regs::IC_SEQUENCE address=0x" ++ (hex8 0x20 ++ (" data=0x" ++
        (hex8 0xFF ++ " serialId="))) := by decide
  have htail : ", error='IC WRITE was unsuccesful'" =
      ", error='" ++ ("IC WRITE was unsuccesful" ++ "'") := by decide
  rw [hhead, htail]
  simp only [sequenceMessage, String.append_assoc]

/-- Claim C5 as stated fails.  The first write finds the status word
`0x80000000` and returns; the read that follows is given `0x0001005A`, whose
empty flag is 1 and whose ready flag is 0, and returns the byte `0x5A` all the
same; the third operation is run, and the result has three entries. -/
theorem executeSequence_read_ignores_status :
    (0x0001005A : Nat).testBit 16 = true ∧ (0x0001005A : Nat).testBit 31 = false ∧
    executeSequence
        (simEnv [0x300, 0x300, 0x80000000, 0x300, 0x0001005A, 0x300, 0x80000000])
        writeReadWrite true (simIc 3) =
      (Except.ok [(Operation.Write, Data.icOut 0xAB), (Operation.Read, Data.icOut 0x5A),
          (Operation.Write, Data.icOut 0xFF)],
        { mLink := simLink 3,
          bar := [BarEvent.read 0x3c0017 0x300,
            BarEvent.read 0x3c0017 0x300,
            BarEvent.write ic_regs.IC_WR_DATA.index 0xAB0010,
            BarEvent.write ic_regs.IC_WR_CMD.index 0x1,
            BarEvent.write ic_regs.IC_WR_CMD.index 0x0,
            BarEvent.write ic_regs.IC_WR_CMD.index 0x4,
            BarEvent.write ic_regs.IC_WR_CMD.index 0x0,
            BarEvent.read ic_regs.IC_RD_DATA.index 0x80000000,
            BarEvent.read 0x3c0017 0x300,
            BarEvent.write ic_regs.IC_WR_DATA.index 0x10,
            BarEvent.write ic_regs.IC_WR_CMD.index 0x1,
            BarEvent.write ic_regs.IC_WR_CMD.index 0x0,
            BarEvent.write ic_regs.IC_WR_CMD.index 0x8,
            BarEvent.write ic_regs.IC_WR_CMD.index 0x0,
            BarEvent.write ic_regs.IC_WR_CMD.index 0x2,
            BarEvent.write ic_regs.IC_WR_CMD.index 0x0,
            BarEvent.read ic_regs.IC_RD_DATA.index 0x0001005A,
            BarEvent.read 0x3c0017 0x300,
            BarEvent.write ic_regs.IC_WR_DATA.index 0xFF0020,
            BarEvent.write ic_regs.IC_WR_CMD.index 0x1,
            BarEvent.write ic_regs.IC_WR_CMD.index 0x0,
            BarEvent.write ic_regs.IC_WR_CMD.index 0x4,
            BarEvent.write ic_regs.IC_WR_CMD.index 0x0,
            BarEvent.read ic_regs.IC_RD_DATA.index 0x80000000],
          lla := [LlaEvent.start, LlaEvent.stop] }) :=
  ⟨by decide, by decide, rfl⟩

/-- Claim C5, amended.  Run `[Write(0x10, 0xAB), Read(0x10), Write(0x20, 0xFF)]`
with a selected channel and a first write that returns.  Whatever status word
`st2` the read is given, it returns `st2 &&& 0xff`, and the third operation is
run: its write transaction ends the register log, with a status word `st3`.
The result has three entries: `(Write, 0xAB)`, `(Read, st2 &&& 0xff)`, and
`(Write, 0xFF)` when bit 16 of `st3` is 0 and bit 31 is 1, otherwise an
`(Error, message)` whose message holds the address `0x00000020`. -/
theorem executeSequence_write_read_write (env : Env) (lock : Bool) (s : Ic)
    (hpre : (checkChannelSet env (if lock then llaStart s else s)).1 = Except.ok ())
    (hfirst : (write env 0x10 0xAB
      (checkChannelSet env (if lock then llaStart s else s)).2).1 = Except.ok 0xAB) :
    ∃ (st2 st3 : Nat) (before between : List BarEvent),
      (executeSequence env writeReadWrite lock s).1 =
        Except.ok [(Operation.Write, Data.icOut 0xAB),
          (Operation.Read, Data.icOut (st2 &&& 0xff)),
          if st3.testBit 16 = false ∧ st3.testBit 31 = true then
            (Operation.Write, Data.icOut 0xFF)
          else
            (Operation.Error, Data.str
              ("ic_regs::IC_SEQUENCE address=0x00000020 data=0x000000ff serialId="
                ++ env.showSerialId s.mLink.serialId ++ " link=" ++ toString s.mLink.linkId
                ++ ", error='IC WRITE was unsuccesful'"))] ∧
      (executeSequence env writeReadWrite lock s).2.bar =
        before ++ BarEvent.read ic_regs.IC_RD_DATA.index st2 :: (between ++
          [BarEvent.write ic_regs.IC_WR_DATA.index 0xFF0020,
           BarEvent.write ic_regs.IC_WR_CMD.index 0x1,
           BarEvent.write ic_regs.IC_WR_CMD.index 0x0,
           BarEvent.write ic_regs.IC_WR_CMD.index 0x4,
           BarEvent.write ic_regs.IC_WR_CMD.index 0x0,
           BarEvent.read ic_regs.IC_RD_DATA.index st3]) := by
  have hlink0 : (if lock then llaStart s else s).mLink = s.mLink := by
    cases lock <;> rfl
  have hne0 := (checkChannelSet_ok_iff env _).1 hpre
  obtain ⟨s1, h1, hl1, -⟩ := checkChannelSet_set env _ hne0
  have hser1 := (checkChannelSet_frame env (if lock then llaStart s else s)).1
  rw [h1] at hfirst hser1
  simp only at hfirst hser1
  -- first operation
  have hA : tryOperation env Operation.Write (Data.icData ⟨0x10, 0xAB⟩) s1 =
      (Except.ok 0xAB, (write env 0x10 0xAB s1).2) :=
    Prod.ext (by simpa [tryOperation, getIcData, writeIcData] using hfirst)
      (by simp [tryOperation, getIcData, writeIcData])
  obtain ⟨hserA, hlinkA, -, -⟩ := write_frame env 0x10 0xAB s1
  have hneA : (write env 0x10 0xAB s1).2.mLink.linkId ≠ -1 := by
    rw [hlinkA, hl1]
    exact hne0
  -- second operation
  obtain ⟨sA0, hA0, -⟩ := checkChannelSet_set env _ hneA
  obtain ⟨st2, hread⟩ := read_of_selected env 0x10 _ sA0 hA0
  have hB : tryOperation env Operation.Read (Data.icData ⟨0x10, 0⟩) (write env 0x10 0xAB s1).2 =
      (Except.ok (st2 &&& 0xff), (read env 0x10 (write env 0x10 0xAB s1).2).2) :=
    Prod.ext (by simp [tryOperation, getIcData, readIcData, hread])
      (by simp [tryOperation, getIcData, readIcData])
  obtain ⟨hserB, hlinkB, -, -⟩ := read_frame env 0x10 (write env 0x10 0xAB s1).2
  have hbarB : ∃ before, (read env 0x10 (write env 0x10 0xAB s1).2).2.bar =
      before ++ [BarEvent.read ic_regs.IC_RD_DATA.index st2] := by
    rw [hread]
    exact ⟨sA0.bar ++
      [BarEvent.write ic_regs.IC_WR_DATA.index (0x10 &&& 0xffff),
       BarEvent.write ic_regs.IC_WR_CMD.index 0x1,
       BarEvent.write ic_regs.IC_WR_CMD.index 0x0,
       BarEvent.write ic_regs.IC_WR_CMD.index 0x8,
       BarEvent.write ic_regs.IC_WR_CMD.index 0x0,
       BarEvent.write ic_regs.IC_WR_CMD.index 0x2,
       BarEvent.write ic_regs.IC_WR_CMD.index 0x0], by simp⟩
  generalize read env 0x10 (write env 0x10 0xAB s1).2 = rB at hB hserB hlinkB hbarB
  obtain ⟨before, hbarB⟩ := hbarB
  have hneB : rB.2.mLink.linkId ≠ -1 := by
    rw [hlinkB]
    exact hneA
  -- third operation
  obtain ⟨sB0, hB0, -⟩ := checkChannelSet_set env _ hneB
  obtain ⟨-, -, -, between, hbet⟩ := checkChannelSet_frame env rB.2
  rw [hB0] at hbet
  simp only at hbet
  obtain ⟨st3, -, hst, hres⟩ := write_of_selected env 0x20 0xFF rB.2 sB0 hB0
  obtain ⟨hserC, hlinkC, -, -⟩ := write_frame env 0x20 0xFF rB.2
  have hbarC : (write env 0x20 0xFF rB.2).2.bar = before ++
      BarEvent.read ic_regs.IC_RD_DATA.index st2 :: (between ++
        [BarEvent.write ic_regs.IC_WR_DATA.index 0xFF0020,
         BarEvent.write ic_regs.IC_WR_CMD.index 0x1,
         BarEvent.write ic_regs.IC_WR_CMD.index 0x0,
         BarEvent.write ic_regs.IC_WR_CMD.index 0x4,
         BarEvent.write ic_regs.IC_WR_CMD.index 0x0,
         BarEvent.read ic_regs.IC_RD_DATA.index st3]) := by
    rw [hst]
    simp only [hbet, hbarB, List.append_assoc, List.cons_append, List.nil_append]
    rfl
  have hserAll : (write env 0x20 0xFF rB.2).2.mLink.serialId = s.mLink.serialId := by
    rw [hserC, hserB, hserA, hser1, hlink0]
  have hlinkAll : (write env 0x20 0xFF rB.2).2.mLink.linkId = s.mLink.linkId := by
    rw [hlinkC, hlinkB, hlinkA, hl1, hlink0]
  refine ⟨st2, st3, before, between, ?_, ?_⟩
  · rw [executeSequence_set_fst env _ lock s s1 h1]
    unfold writeReadWrite
    rw [executeLoop_cons_ok env _ _ _ _ s1 _ _ hA, executeLoop_cons_ok env _ _ _ _ _ _ _ hB]
    by_cases hb : st3.testBit 16 = false ∧ st3.testBit 31 = true
    · rw [if_pos hb] at hres
      have hC : tryOperation env Operation.Write (Data.icData ⟨0x20, 0xFF⟩) rB.2 =
          (Except.ok 0xFF, (write env 0x20 0xFF rB.2).2) :=
        Prod.ext (by simpa [tryOperation, getIcData, writeIcData] using hres)
          (by simp [tryOperation, getIcData, writeIcData])
      rw [executeLoop_cons_ok env _ _ _ _ _ _ _ hC, executeLoop_nil, if_pos hb]
      rfl
    · rw [if_neg hb] at hres
      have hC : tryOperation env Operation.Write (Data.icData ⟨0x20, 0xFF⟩) rB.2 =
          (Except.error (Exn.IcException "IC WRITE was unsuccesful"),
            (write env 0x20 0xFF rB.2).2) :=
        Prod.ext (by simpa [tryOperation, getIcData, writeIcData] using hres)
          (by simp [tryOperation, getIcData, writeIcData])
      rw [executeLoop_cons_caught env _ _ _ _ _ _ _ hC, if_neg hb,
        sequenceMessage_write_0x20, hserAll, hlinkAll]
      rfl
  · rw [← hbarC, executeSequence_set env _ lock s s1 h1]
    unfold writeReadWrite
    rw [executeLoop_cons_ok env _ _ _ _ s1 _ _ hA, executeLoop_cons_ok env _ _ _ _ _ _ _ hB]
    by_cases hb : st3.testBit 16 = false ∧ st3.testBit 31 = true
    · rw [if_pos hb] at hres
      have hC : tryOperation env Operation.Write (Data.icData ⟨0x20, 0xFF⟩) rB.2 =
          (Except.ok 0xFF, (write env 0x20 0xFF rB.2).2) :=
        Prod.ext (by simpa [tryOperation, getIcData, writeIcData] using hres)
          (by simp [tryOperation, getIcData, writeIcData])
      rw [executeLoop_cons_ok env _ _ _ _ _ _ _ hC, executeLoop_nil]
      cases lock <;> rfl
    · rw [if_neg hb] at hres
      have hC : tryOperation env Operation.Write (Data.icData ⟨0x20, 0xFF⟩) rB.2 =
          (Except.error (Exn.IcException "IC WRITE was unsuccesful"),
            (write env 0x20 0xFF rB.2).2) :=
        Prod.ext (by simpa [tryOperation, getIcData, writeIcData] using hres)
          (by simp [tryOperation, getIcData, writeIcData])
      rw [executeLoop_cons_caught env _ _ _ _ _ _ _ hC]
      cases lock <;> rfl

/-- On the simulated card the hypotheses hold with a read that is given the
status word `0x0001005A` (empty flag 1, ready flag 0). -/
theorem executeSequence_write_read_write_witness :
    (checkChannelSet (simEnv [0x300, 0x300, 0x80000000, 0x300, 0x0001005A, 0x300, 0x0])
      (if true then llaStart (simIc 3) else simIc 3)).1 = Except.ok () ∧
    (write (simEnv [0x300, 0x300, 0x80000000, 0x300, 0x0001005A, 0x300, 0x0]) 0x10 0xAB
      (checkChannelSet (simEnv [0x300, 0x300, 0x80000000, 0x300, 0x0001005A, 0x300, 0x0])
        (if true then llaStart (simIc 3) else simIc 3)).2).1 = Except.ok 0xAB ∧
    (executeSequence (simEnv [0x300, 0x300, 0x80000000, 0x300, 0x0001005A, 0x300, 0x0])
      writeReadWrite true (simIc 3)).1 =
      Except.ok [(Operation.Write, Data.icOut 0xAB), (Operation.Read, Data.icOut 0x5A),
        (Operation.Error, Data.str ("ic_regs::IC_SEQUENCE address=0x00000020 data=0x000000ff "
          ++ "serialId=1041:0 link=3, error='IC WRITE was unsuccesful'"))] ∧
    ∃ st2 st3 : Nat,
      (executeSequence (simEnv [0x300, 0x300, 0x80000000, 0x300, 0x0001005A, 0x300, 0x0])
        writeReadWrite true (simIc 3)).1 =
        Except.ok [(Operation.Write, Data.icOut 0xAB),
          (Operation.Read, Data.icOut (st2 &&& 0xff)),
          if st3.testBit 16 = false ∧ st3.testBit 31 = true then
            (Operation.Write, Data.icOut 0xFF)
          else
            (Operation.Error, Data.str
              ("ic_regs::IC_SEQUENCE address=0x00000020 data=0x000000ff serialId="
                ++ (simEnv []).showSerialId (simIc 3).mLink.serialId ++ " link="
                ++ toString (simIc 3).mLink.linkId
                ++ ", error='IC WRITE was unsuccesful'"))] :=
  ⟨rfl, rfl, rfl,
    match executeSequence_write_read_write
      (simEnv [0x300, 0x300, 0x80000000, 0x300, 0x0001005A, 0x300, 0x0]) true (simIc 3)
      rfl rfl with
    | ⟨st2, st3, _, _, h, _⟩ => ⟨st2, st3, h⟩⟩

/-! ## Single transactions: values and traces -/

theorem and_ff (x : Nat) : x &&& 0xff = x % 256 := Nat.and_pow_two_sub_one_eq_mod x 8

theorem and_ffff (x : Nat) : x &&& 0xffff = x % 65536 := Nat.and_pow_two_sub_one_eq_mod x 16

/-- Flipping a bit above the low byte does not change the low byte. -/
theorem flip_high_bit (x n : Nat) (hn : 8 ≤ n) : (x ^^^ 2 ^ n) &&& 0xff = x &&& 0xff := by
  apply Nat.eq_of_testBit_eq
  intro i
  rw [and_ff, and_ff]
  have h256 : (256 : Nat) = 2 ^ 8 := rfl
  rw [h256, Nat.testBit_mod_two_pow, Nat.testBit_mod_two_pow, Nat.testBit_xor,
    Nat.testBit_two_pow]
  by_cases hi : i < 8
  · have : ¬ n = i := by omega
    simp [hi, this]
  · simp [hi]

/-- The fields of the word `write` pushes. -/
theorem word_fields (a d : Nat) :
    ((d &&& 0xff) <<< 16 + (a &&& 0xffff)) &&& 0xffff = a &&& 0xffff ∧
    (((d &&& 0xff) <<< 16 + (a &&& 0xffff)) >>> 16) &&& 0xff = d &&& 0xff ∧
    ((d &&& 0xff) <<< 16 + (a &&& 0xffff)) >>> 24 = 0 ∧
    (d &&& 0xff) <<< 16 + (a &&& 0xffff) = (d &&& 0xff) <<< 16 ||| (a &&& 0xffff) := by
  have hd : d &&& 0xff < 256 := by rw [and_ff]; omega
  have ha : a &&& 0xffff < 65536 := by rw [and_ffff]; omega
  generalize d &&& 0xff = x at hd ⊢
  generalize a &&& 0xffff = y at ha ⊢
  have hs : x <<< 16 = 65536 * x := by rw [Nat.shiftLeft_eq, Nat.mul_comm]
  refine ⟨?_, ?_, ?_, ?_⟩
  · rw [and_ffff, hs]; omega
  · rw [and_ff, Nat.shiftRight_eq_div_pow, hs]; omega
  · rw [Nat.shiftRight_eq_div_pow, hs]; omega
  · rw [hs]
    exact Nat.mul_add_lt_is_or (i := 16) ha x

theorem countReads_append (l r : List BarEvent) :
    countReads (l ++ r) = countReads l + countReads r := by
  induction l with
  | nil => simp [countReads]
  | cons e rest ih =>
    cases e with
    | write index value => simpa [countReads] using ih
    | read index value =>
      have hcons : countReads (BarEvent.read index value :: (rest ++ r)) =
          countReads (rest ++ r) + 1 := rfl
      have hhead : countReads (BarEvent.read index value :: rest) = countReads rest + 1 := rfl
      rw [List.cons_append, hcons, hhead, ih]
      omega

/-- The state the channel check leaves when it passes. -/
theorem checkChannelSet_eq_of_ok (env : Env) (s : Ic)
    (hsel : (checkChannelSet env s).1 = Except.ok ()) :
    checkChannelSet env s = (Except.ok (), (checkChannelSet env s).2) :=
  Prod.ext hsel rfl

/-- The channel check on a link that is set and already selected. -/
theorem checkChannelSet_selected (env : Env) (s : Ic) (hset : s.mLink.linkId ≠ -1)
    (hmatch : ((((env.readRegister s.bar env.SWT_MON.index % 4294967296) >>> 8) &&& 0xff
      : Nat) : Int) = s.mLink.rawLinkId) :
    checkChannelSet env s = (Except.ok (),
      { s with bar := s.bar ++ [BarEvent.read env.SWT_MON.index
        (env.readRegister s.bar env.SWT_MON.index % 4294967296)] }) := by
  simp only [checkChannelSet, if_neg hset, barRead, hmatch, ne_eq, not_true_eq_false, if_false]

/-- Claim C11.  In every state in which the channel check succeeds, `read`
does not fail.  It makes one read after the check, the last access, of
`IC_RD_DATA`; with `status` the word that read gave, `read` returns
`status &&& 0xff`, which is below 256 and is the same when bit 16 (empty) or
bit 31 (ready) of `status` is flipped. -/
theorem read_returns_low_byte (env : Env) (address : Nat) (s : Ic)
    (hsel : (checkChannelSet env s).1 = Except.ok ()) :
    ∃ status : Nat,
      (read env address s).2.bar.getLast? =
        some (BarEvent.read ic_regs.IC_RD_DATA.index status) ∧
      countReads (read env address s).2.bar = countReads (checkChannelSet env s).2.bar + 1 ∧
      (read env address s).1 = Except.ok (status &&& 0xff) ∧
      status &&& 0xff < 256 ∧
      (status ^^^ 2 ^ 16) &&& 0xff = status &&& 0xff ∧
      (status ^^^ 2 ^ 31) &&& 0xff = status &&& 0xff := by
  obtain ⟨status, hr⟩ := read_of_selected env address s _ (checkChannelSet_eq_of_ok env s hsel)
  refine ⟨status, ?_, ?_, ?_, ?_, flip_high_bit status 16 (by norm_num),
    flip_high_bit status 31 (by norm_num)⟩
  · rw [hr]
    simp
  · rw [hr]
    simp [countReads_append, countReads]
  · rw [hr]
  · rw [and_ff]
    omega

/-- On the simulated card the read is given `0x8001005A`, with the empty and
ready flags set, and returns `0x5A`. -/
theorem read_returns_low_byte_witness :
    (checkChannelSet (simEnv [0x300, 0x8001005A]) (simIc 3)).1 = Except.ok () ∧
    (read (simEnv [0x300, 0x8001005A]) 0x10 (simIc 3)).1 = Except.ok 0x5A ∧
    ∃ status : Nat,
      (read (simEnv [0x300, 0x8001005A]) 0x10 (simIc 3)).2.bar.getLast? =
        some (BarEvent.read ic_regs.IC_RD_DATA.index status) ∧
      (read (simEnv [0x300, 0x8001005A]) 0x10 (simIc 3)).1 = Except.ok (status &&& 0xff) :=
  ⟨rfl, rfl,
    match read_returns_low_byte (simEnv [0x300, 0x8001005A]) 0x10 (simIc 3) rfl with
    | ⟨status, hlast, _, hres, _⟩ => ⟨status, hlast, hres⟩⟩

/-- Claim C12.  On a link that is set, the accesses `read` makes after the
channel check are, in order, the writes `IC_WR_DATA <- address &&& 0xffff`,
`IC_WR_CMD <- 0x1`, `0x0`, `0x8`, `0x0`, `0x2`, `0x0` and one read of
`IC_RD_DATA`, and nothing else.  When the channel is already selected the
check itself is the one read of `SWT_MON`.  The three registers are at the
offsets `0x20`, `0x28` and `0x30` from `0x00f00000`. -/
theorem read_register_trace (env : Env) (address : Nat) (s : Ic)
    (hset : s.mLink.linkId ≠ -1)
    (hmatch : ((((env.readRegister s.bar env.SWT_MON.index % 4294967296) >>> 8) &&& 0xff
      : Nat) : Int) = s.mLink.rawLinkId) :
    ∃ status : Nat,
      (read env address s).2.bar = (checkChannelSet env s).2.bar ++
        [BarEvent.write ic_regs.IC_WR_DATA.index (address &&& 0xffff),
         BarEvent.write ic_regs.IC_WR_CMD.index 0x1,
         BarEvent.write ic_regs.IC_WR_CMD.index 0x0,
         BarEvent.write ic_regs.IC_WR_CMD.index 0x8,
         BarEvent.write ic_regs.IC_WR_CMD.index 0x0,
         BarEvent.write ic_regs.IC_WR_CMD.index 0x2,
         BarEvent.write ic_regs.IC_WR_CMD.index 0x0,
         BarEvent.read ic_regs.IC_RD_DATA.index status] ∧
      (checkChannelSet env s).2.bar = s.bar ++ [BarEvent.read env.SWT_MON.index
        (env.readRegister s.bar env.SWT_MON.index % 4294967296)] ∧
      ic_regs.IC_WR_DATA.address = 0x00f00000 + 0x20 ∧
      ic_regs.IC_WR_CMD.address = 0x00f00000 + 0x28 ∧
      ic_regs.IC_RD_DATA.address = 0x00f00000 + 0x30 ∧
      ic_regs.IC_WR_DATA.index = (0x00f00000 + 0x20) / 4 ∧
      ic_regs.IC_WR_CMD.index = (0x00f00000 + 0x28) / 4 ∧
      ic_regs.IC_RD_DATA.index = (0x00f00000 + 0x30) / 4 := by
  have hsel := (checkChannelSet_ok_iff env s).2 hset
  obtain ⟨status, hr⟩ := read_of_selected env address s _ (checkChannelSet_eq_of_ok env s hsel)
  refine ⟨status, by rw [hr], ?_, rfl, rfl, rfl, rfl, rfl, rfl⟩
  rw [checkChannelSet_selected env s hset hmatch]

/-- On the simulated card with link 3 selected, the whole trace of a read of
the address `0x12345`. -/
theorem read_register_trace_witness :
    (simIc 3).mLink.linkId ≠ -1 ∧
    (read (simEnv [0x300, 0x5A]) 0x12345 (simIc 3)).2.bar =
      [BarEvent.read (simEnv []).SWT_MON.index 0x300,
       BarEvent.write ic_regs.IC_WR_DATA.index 0x2345,
       BarEvent.write ic_regs.IC_WR_CMD.index 0x1,
       BarEvent.write ic_regs.IC_WR_CMD.index 0x0,
       BarEvent.write ic_regs.IC_WR_CMD.index 0x8,
       BarEvent.write ic_regs.IC_WR_CMD.index 0x0,
       BarEvent.write ic_regs.IC_WR_CMD.index 0x2,
       BarEvent.write ic_regs.IC_WR_CMD.index 0x0,
       BarEvent.read ic_regs.IC_RD_DATA.index 0x5A] ∧
    ∃ status : Nat,
      (read (simEnv [0x300, 0x5A]) 0x12345 (simIc 3)).2.bar =
        (checkChannelSet (simEnv [0x300, 0x5A]) (simIc 3)).2.bar ++
        [BarEvent.write ic_regs.IC_WR_DATA.index (0x12345 &&& 0xffff),
         BarEvent.write ic_regs.IC_WR_CMD.index 0x1,
         BarEvent.write ic_regs.IC_WR_CMD.index 0x0,
         BarEvent.write ic_regs.IC_WR_CMD.index 0x8,
         BarEvent.write ic_regs.IC_WR_CMD.index 0x0,
         BarEvent.write ic_regs.IC_WR_CMD.index 0x2,
         BarEvent.write ic_regs.IC_WR_CMD.index 0x0,
         BarEvent.read ic_regs.IC_RD_DATA.index status] :=
  ⟨by decide, rfl,
    match read_register_trace (simEnv [0x300, 0x5A]) 0x12345 (simIc 3) (by decide) rfl with
    | ⟨status, htrace, _⟩ => ⟨status, htrace⟩⟩

/-- Claim C13.  On a link that is set, the accesses `write` makes after the
channel check are, in order, the writes
`IC_WR_DATA <- ((data &&& 0xff) <<< 16) + (address &&& 0xffff)`,
`IC_WR_CMD <- 0x1`, `0x0`, `0x4`, `0x0` and one read of `IC_RD_DATA`, and
nothing else, whether `write` then returns or throws.  When the channel is
already selected the check itself is the one read of `SWT_MON`. -/
theorem write_register_trace (env : Env) (address data : Nat) (s : Ic)
    (hset : s.mLink.linkId ≠ -1)
    (hmatch : ((((env.readRegister s.bar env.SWT_MON.index % 4294967296) >>> 8) &&& 0xff
      : Nat) : Int) = s.mLink.rawLinkId) :
    ∃ status : Nat,
      (write env address data s).2.bar = (checkChannelSet env s).2.bar ++
        [BarEvent.write ic_regs.IC_WR_DATA.index (((data &&& 0xff) <<< 16) + (address &&& 0xffff)),
         BarEvent.write ic_regs.IC_WR_CMD.index 0x1,
         BarEvent.write ic_regs.IC_WR_CMD.index 0x0,
         BarEvent.write ic_regs.IC_WR_CMD.index 0x4,
         BarEvent.write ic_regs.IC_WR_CMD.index 0x0,
         BarEvent.read ic_regs.IC_RD_DATA.index status] ∧
      (checkChannelSet env s).2.bar = s.bar ++ [BarEvent.read env.SWT_MON.index
        (env.readRegister s.bar env.SWT_MON.index % 4294967296)] ∧
      ((write env address data s).1 = Except.ok data ∨
        (write env address data s).1 =
          Except.error (Exn.IcException "IC WRITE was unsuccesful")) := by
  have hsel := (checkChannelSet_ok_iff env s).2 hset
  obtain ⟨status, -, hst, hres⟩ :=
    write_of_selected env address data s _ (checkChannelSet_eq_of_ok env s hsel)
  refine ⟨status, by rw [hst], ?_, ?_⟩
  · rw [checkChannelSet_selected env s hset hmatch]
  · rw [hres]
    split
    · exact Or.inl rfl
    · exact Or.inr rfl

/-- On the simulated card with link 3 selected, a write that returns and a
write that throws leave the same trace up to the status word. -/
theorem write_register_trace_witness :
    (simIc 3).mLink.linkId ≠ -1 ∧
    write (simEnv [0x300, 0x80000000]) 0x12345 0x1FF (simIc 3) =
      (Except.ok 0x1FF,
        { mLink := simLink 3,
          bar := [BarEvent.read (simEnv []).SWT_MON.index 0x300,
            BarEvent.write ic_regs.IC_WR_DATA.index 0xFF2345,
            BarEvent.write ic_regs.IC_WR_CMD.index 0x1,
            BarEvent.write ic_regs.IC_WR_CMD.index 0x0,
            BarEvent.write ic_regs.IC_WR_CMD.index 0x4,
            BarEvent.write ic_regs.IC_WR_CMD.index 0x0,
            BarEvent.read ic_regs.IC_RD_DATA.index 0x80000000],
          lla := [] }) ∧
    write (simEnv [0x300, 0x10000]) 0x12345 0x1FF (simIc 3) =
      (Except.error (Exn.IcException "IC WRITE was unsuccesful"),
        { mLink := simLink 3,
          bar := [BarEvent.read (simEnv []).SWT_MON.index 0x300,
            BarEvent.write ic_regs.IC_WR_DATA.index 0xFF2345,
            BarEvent.write ic_regs.IC_WR_CMD.index 0x1,
            BarEvent.write ic_regs.IC_WR_CMD.index 0x0,
            BarEvent.write ic_regs.IC_WR_CMD.index 0x4,
            BarEvent.write ic_regs.IC_WR_CMD.index 0x0,
            BarEvent.read ic_regs.IC_RD_DATA.index 0x10000],
          lla := [] }) ∧
    ∃ status : Nat,
      (write (simEnv [0x300, 0x10000]) 0x12345 0x1FF (simIc 3)).2.bar =
        (checkChannelSet (simEnv [0x300, 0x10000]) (simIc 3)).2.bar ++
        [BarEvent.write ic_regs.IC_WR_DATA.index (((0x1FF &&& 0xff) <<< 16) + (0x12345 &&& 0xffff)),
         BarEvent.write ic_regs.IC_WR_CMD.index 0x1,
         BarEvent.write ic_regs.IC_WR_CMD.index 0x0,
         BarEvent.write ic_regs.IC_WR_CMD.index 0x4,
         BarEvent.write ic_regs.IC_WR_CMD.index 0x0,
         BarEvent.read ic_regs.IC_RD_DATA.index status] :=
  ⟨by decide, rfl, rfl,
    match write_register_trace (simEnv [0x300, 0x10000]) 0x12345 0x1FF (simIc 3)
      (by decide) rfl with
    | ⟨status, htrace, _⟩ => ⟨status, htrace⟩⟩

/-- The element that follows a list in an extension of it. -/
theorem getElem?_after {α : Type} (l r : List α) (x : α) :
    (l ++ x :: r)[l.length]? = some x := by
  rw [List.getElem?_append_right (le_refl _), Nat.sub_self, List.getElem?_cons_zero]

/-- Claim C14.  In every state in which the channel check succeeds, the first
access after the check is the write of a word to `IC_WR_DATA`.  For `read` the
word is `address &&& 0xffff`.  For `write` the low 16 bits of the word are
`address &&& 0xffff`, its bits 16 to 23 are `data &&& 0xff`, it has no bit
from 24 up, and it is the bitwise OR of the two fields.  Masking the arguments
beforehand changes nothing: the same accesses are made. -/
theorem pushed_word_fields (env : Env) (address data : Nat) (s : Ic)
    (hsel : (checkChannelSet env s).1 = Except.ok ()) :
    ∃ wr ww : Nat,
      (read env address s).2.bar[(checkChannelSet env s).2.bar.length]? =
        some (BarEvent.write ic_regs.IC_WR_DATA.index wr) ∧
      (write env address data s).2.bar[(checkChannelSet env s).2.bar.length]? =
        some (BarEvent.write ic_regs.IC_WR_DATA.index ww) ∧
      wr = address &&& 0xffff ∧
      ww = ((data &&& 0xff) <<< 16) + (address &&& 0xffff) ∧
      ww &&& 0xffff = address &&& 0xffff ∧
      (ww >>> 16) &&& 0xff = data &&& 0xff ∧
      ww >>> 24 = 0 ∧
      ww = ((data &&& 0xff) <<< 16) ||| (address &&& 0xffff) ∧
      read env (address &&& 0xffff) s = read env address s ∧
      (write env (address &&& 0xffff) (data &&& 0xff) s).2 = (write env address data s).2 := by
  have h0 := checkChannelSet_eq_of_ok env s hsel
  obtain ⟨st, hr⟩ := read_of_selected env address s _ h0
  obtain ⟨status, -, hw, -⟩ := write_of_selected env address data s _ h0
  obtain ⟨status2, hstatus2, hw2, -⟩ :=
    write_of_selected env (address &&& 0xffff) (data &&& 0xff) s _ h0
  obtain ⟨hlow, hmid, hhigh, hor⟩ := word_fields address data
  refine ⟨address &&& 0xffff, ((data &&& 0xff) <<< 16) + (address &&& 0xffff), ?_, ?_, rfl, rfl,
    hlow, hmid, hhigh, hor, ?_, ?_⟩
  · rw [hr]
    exact getElem?_after _ _ _
  · rw [hw]
    exact getElem?_after _ _ _
  · simp only [read, Nat.and_assoc, Nat.and_self]
  · obtain ⟨status1, hstatus1, hw1, -⟩ := write_of_selected env address data s _ h0
    rw [hw1, hw2, hstatus1, hstatus2]
    simp only [Nat.and_assoc, Nat.and_self]

/-- On the simulated card, for the address `0x12345` and the data `0x1FF`. -/
theorem pushed_word_fields_witness :
    (checkChannelSet (simEnv [0x300, 0x80000000]) (simIc 3)).1 = Except.ok () ∧
    ∃ wr ww : Nat,
      (read (simEnv [0x300, 0x80000000]) 0x12345 (simIc 3)).2.bar[
          (checkChannelSet (simEnv [0x300, 0x80000000]) (simIc 3)).2.bar.length]? =
        some (BarEvent.write ic_regs.IC_WR_DATA.index wr) ∧
      (write (simEnv [0x300, 0x80000000]) 0x12345 0x1FF (simIc 3)).2.bar[
          (checkChannelSet (simEnv [0x300, 0x80000000]) (simIc 3)).2.bar.length]? =
        some (BarEvent.write ic_regs.IC_WR_DATA.index ww) ∧
      wr = 0x2345 ∧ ww = 0xFF2345 :=
  ⟨rfl,
    match pushed_word_fields (simEnv [0x300, 0x80000000]) 0x12345 0x1FF (simIc 3) rfl with
    | ⟨wr, ww, h1, h2, h3, h4, _⟩ => ⟨wr, ww, h1, h2, h3, h4⟩⟩

/-! ## Channel change -/

/-- Claim C15.  `setChannel c` sets the link id to `c` and the raw link id to
`endpoint * 12 + c`, with the endpoint of the link's serial id, keeps the other
fields of the link descriptor and the lock session, and appends exactly one
access to the register log: the write of the new raw link id, as a `uint32_t`,
to `SC_LINK`. -/
theorem setChannel_effect (env : Env) (c : Int) (s : Ic) :
    (setChannel env c s).mLink.linkId = c ∧
    (setChannel env c s).mLink.rawLinkId = s.mLink.serialId.endpoint * 12 + c ∧
    (setChannel env c s).mLink.alfId = s.mLink.alfId ∧
    (setChannel env c s).mLink.serialId = s.mLink.serialId ∧
    (setChannel env c s).mLink.cardType = s.mLink.cardType ∧
    (setChannel env c s).lla = s.lla ∧
    (setChannel env c s).bar = s.bar ++
      [BarEvent.write env.SC_LINK.index (toUInt32 (setChannel env c s).mLink.rawLinkId)] ∧
    ((toUInt32 (setChannel env c s).mLink.rawLinkId : Nat) : Int) =
      (setChannel env c s).mLink.rawLinkId % 4294967296 := by
  refine ⟨rfl, rfl, rfl, rfl, rfl, rfl, rfl, ?_⟩
  unfold toUInt32
  exact Int.toNat_of_nonneg (Int.emod_nonneg _ (by norm_num))

/-! ## The text layer -/

/-- When the `try` block returns, the kind is `Read` or `Write`. -/
theorem tryOperation_ok_kind (env : Env) (operation : Operation) (data : Data) (s : Ic)
    (out : Nat) (h : (tryOperation env operation data s).1 = Except.ok out) :
    operation ≠ Operation.Error := by
  intro hop
  subst hop
  simp [tryOperation] at h

/-- Every list the loop returns consists of word results under a kind other
than `Error`, followed by at most one `Error` entry holding a string. -/
theorem executeLoop_results (env : Env) :
    ∀ (ops ret : List (Operation × Data)) (s : Ic) (r : List (Operation × Data)),
      (∀ e ∈ ret, e.1 ≠ Operation.Error ∧ ∃ v, e.2 = Data.icOut v) →
      (executeLoop env ops ret s).1 = Except.ok r →
      (∀ e ∈ r, e.1 ≠ Operation.Error ∧ ∃ v, e.2 = Data.icOut v) ∨
      ∃ pre m, r = pre ++ [(Operation.Error, Data.str m)] ∧
        ∀ e ∈ pre, e.1 ≠ Operation.Error ∧ ∃ v, e.2 = Data.icOut v := by
  intro ops
  induction ops with
  | nil =>
    intro ret s r hret hr
    rw [executeLoop_nil] at hr
    cases hr
    exact Or.inl hret
  | cons x rest ih =>
    intro ret s r hret hr
    obtain ⟨operation, data⟩ := x
    rcases hres : tryOperation env operation data s with ⟨outcome, s1⟩
    cases outcome with
    | ok out =>
      rw [executeLoop_cons_ok env operation data rest ret s s1 out hres] at hr
      refine ih _ s1 r ?_ hr
      intro e he
      rcases List.mem_append.1 he with he | he
      · exact hret e he
      · rw [List.mem_singleton] at he
        subst he
        exact ⟨tryOperation_ok_kind env operation data s out (by rw [hres]), out, rfl⟩
    | error e =>
      cases e with
      | bad_get =>
        simp only [executeLoop, hres] at hr
        cases hr
      | IcException what =>
        cases data with
        | icData d =>
          rw [executeLoop_cons_caught env operation d rest ret s s1 what hres] at hr
          cases hr
          exact Or.inr ⟨ret, _, rfl, hret⟩
        | icOut v =>
          simp only [executeLoop, hres, getIcData] at hr
          cases hr
        | str t =>
          simp only [executeLoop, hres, getIcData] at hr
          cases hr

/-- Every list `executeSequence` returns consists of word results under a
kind other than `Error`, followed by at most one `Error` entry holding a
string. -/
theorem executeSequence_results (env : Env) (ops : List (Operation × Data)) (lock : Bool)
    (s : Ic) (r : List (Operation × Data))
    (hr : (executeSequence env ops lock s).1 = Except.ok r) :
    (∀ e ∈ r, e.1 ≠ Operation.Error ∧ ∃ v, e.2 = Data.icOut v) ∨
    ∃ pre m, r = pre ++ [(Operation.Error, Data.str m)] ∧
      ∀ e ∈ pre, e.1 ≠ Operation.Error ∧ ∃ v, e.2 = Data.icOut v := by
  by_cases hun : s.mLink.linkId = -1
  · rw [executeSequence_unset env ops lock s hun] at hr
    cases hr
    exact Or.inr ⟨[], _, rfl, by simp⟩
  · have hne : (if lock then llaStart s else s).mLink.linkId ≠ -1 := by
      cases lock <;> simpa [llaStart] using hun
    obtain ⟨s1, h1, -⟩ := checkChannelSet_set env _ hne
    rw [executeSequence_set_fst env ops lock s s1 h1] at hr
    exact executeLoop_results env ops [] s1 r (by simp) hr

/-- The text loop on word results: every entry adds its line. -/
theorem writeSequenceLoop_words (env : Env) :
    ∀ (r : List (Operation × Data)) (resultBuffer : String),
      (∀ e ∈ r, e.1 ≠ Operation.Error ∧ ∃ v, e.2 = Data.icOut v) →
      writeSequenceLoop env r resultBuffer =
        Except.ok (resultBuffer ++ formattedLines env r) := by
  intro r
  induction r with
  | nil =>
    intro resultBuffer _
    simp [writeSequenceLoop, formattedLines]
  | cons x rest ih =>
    intro resultBuffer hgood
    obtain ⟨operation, data⟩ := x
    obtain ⟨hop, v, hv⟩ := hgood (operation, data) (List.mem_cons_self _ _)
    simp only at hop hv
    subst hv
    have hkind : operation = Operation.Read ∨ operation = Operation.Write := by
      cases operation
      · exact Or.inl rfl
      · exact Or.inr rfl
      · exact absurd rfl hop
    have hrest := ih (resultBuffer ++ env.formatValue v ++ "\n")
      (fun e he => hgood e (List.mem_cons_of_mem _ he))
    simp only [String.append_assoc] at hrest
    simp only [writeSequenceLoop, if_pos hkind, getIcOut, formattedLines, String.append_assoc]
    exact hrest

/-- The text loop on word results followed by an `Error` entry: the loop
throws the lines written so far followed by the message. -/
theorem writeSequenceLoop_error (env : Env) :
    ∀ (pre post : List (Operation × Data)) (m resultBuffer : String),
      (∀ e ∈ pre, e.1 ≠ Operation.Error ∧ ∃ v, e.2 = Data.icOut v) →
      writeSequenceLoop env (pre ++ (Operation.Error, Data.str m) :: post) resultBuffer =
        Except.error (Exn.IcException (resultBuffer ++ formattedLines env pre ++ m)) := by
  intro pre
  induction pre with
  | nil =>
    intro post m resultBuffer _
    simp [writeSequenceLoop, getString, formattedLines]
  | cons x rest ih =>
    intro post m resultBuffer hgood
    obtain ⟨operation, data⟩ := x
    obtain ⟨hop, v, hv⟩ := hgood (operation, data) (List.mem_cons_self _ _)
    simp only at hop hv
    subst hv
    have hkind : operation = Operation.Read ∨ operation = Operation.Write := by
      cases operation
      · exact Or.inl rfl
      · exact Or.inr rfl
      · exact absurd rfl hop
    have hrest := ih post m (resultBuffer ++ env.formatValue v ++ "\n")
      (fun e he => hgood e (List.mem_cons_of_mem _ he))
    simp only [String.append_assoc] at hrest
    rw [List.cons_append, writeSequenceLoop]
    simp only [if_pos hkind, getIcOut, formattedLines, String.append_assoc]
    exact hrest

/-- Claim C16.  Let `r` be the list `executeSequence` returns.  If `r` has no
`Error` entry, `writeSequence` returns the text made, in order, of
`formatValue` of each result word followed by a newline.  If `r` has an
`Error` entry, it is the last one, with a message `m`, and `writeSequence`
throws an `IcException` whose message is the lines of the entries before it
followed by `m`.  The session is left as `executeSequence` leaves it. -/
theorem writeSequence_text (env : Env) (ops : List (Operation × Data)) (lock : Bool)
    (s : Ic) (r : List (Operation × Data))
    (hr : (executeSequence env ops lock s).1 = Except.ok r) :
    ((∀ e ∈ r, e.1 ≠ Operation.Error) →
      (∀ e ∈ r, ∃ v, e.2 = Data.icOut v) ∧
      (writeSequence env ops lock s).1 = Except.ok (formattedLines env r)) ∧
    ((∃ e ∈ r, e.1 = Operation.Error) →
      ∃ pre m, r = pre ++ [(Operation.Error, Data.str m)] ∧
        (∀ e ∈ pre, e.1 ≠ Operation.Error ∧ ∃ v, e.2 = Data.icOut v) ∧
        (writeSequence env ops lock s).1 =
          Except.error (Exn.IcException (formattedLines env pre ++ m))) ∧
    (writeSequence env ops lock s).2 = (executeSequence env ops lock s).2 := by
  have hws : writeSequence env ops lock s =
      (writeSequenceLoop env r "", (executeSequence env ops lock s).2) := by
    unfold writeSequence
    rcases hes : executeSequence env ops lock s with ⟨outcome, s1⟩
    rw [hes] at hr
    simp only at hr
    subst hr
    rfl
  refine ⟨?_, ?_, by rw [hws]⟩
  · intro hnone
    rcases executeSequence_results env ops lock s r hr with hgood | ⟨pre, m, hpre, -⟩
    · refine ⟨fun e he => (hgood e he).2, ?_⟩
      rw [hws, writeSequenceLoop_words env r "" hgood]
      simp
    · exact absurd rfl (hnone (Operation.Error, Data.str m) (by rw [hpre]; simp))
  · rintro ⟨e, he, hkind⟩
    rcases executeSequence_results env ops lock s r hr with hgood | ⟨pre, m, hpre, hgood⟩
    · exact absurd hkind (hgood e he).1
    · refine ⟨pre, m, hpre, hgood, ?_⟩
      rw [hws, hpre, writeSequenceLoop_error env pre [] m "" hgood]
      simp

/-- On the simulated card: a write that returns followed by a write that
fails gives the line of the first and the diagnostic of the second. -/
theorem writeSequence_text_witness :
    (executeSequence (simEnv [0x300, 0x300, 0x80000000, 0x300, 0x0])
      [(Operation.Write, Data.icData ⟨0x10, 0xAB⟩), (Operation.Write, Data.icData ⟨0x11, 0xCD⟩)]
      false (simIc 3)).1 =
      Except.ok [(Operation.Write, Data.icOut 0xAB),
        (Operation.Error, Data.str ("ic_regs::IC_SEQUENCE address=0x00000011 data=0x000000cd "
          ++ "serialId=1041:0 link=3, error='IC WRITE was unsuccesful'"))] ∧
    (writeSequence (simEnv [0x300, 0x300, 0x80000000, 0x300, 0x0])
      [(Operation.Write, Data.icData ⟨0x10, 0xAB⟩), (Operation.Write, Data.icData ⟨0x11, 0xCD⟩)]
      false (simIc 3)).1 =
      Except.error (Exn.IcException ("0x000000ab\n"
        ++ "ic_regs::IC_SEQUENCE address=0x00000011 data=0x000000cd "
        ++ "serialId=1041:0 link=3, error='IC WRITE was unsuccesful'")) ∧
    (writeSequence (simEnv [0x300, 0x300, 0x80000000, 0x300, 0x0])
      [(Operation.Write, Data.icData ⟨0x10, 0xAB⟩), (Operation.Write, Data.icData ⟨0x11, 0xCD⟩)]
      false (simIc 3)).2 =
    (executeSequence (simEnv [0x300, 0x300, 0x80000000, 0x300, 0x0])
      [(Operation.Write, Data.icData ⟨0x10, 0xAB⟩), (Operation.Write, Data.icData ⟨0x11, 0xCD⟩)]
      false (simIc 3)).2 :=
  ⟨rfl, rfl,
    (writeSequence_text (simEnv [0x300, 0x300, 0x80000000, 0x300, 0x0])
      [(Operation.Write, Data.icData ⟨0x10, 0xAB⟩), (Operation.Write, Data.icData ⟨0x11, 0xCD⟩)]
      false (simIc 3) _ rfl).2.2⟩

/-! ## Messages and construction -/

/-- Claim C17, evaluated on the code.  A write whose status word has the
ready flag at 0 throws an `IcException` whose message is the text of the
source, "IC WRITE was unsuccesful", which is not the text "IC WRITE was
unsuccessful"; it is the text of the source that `executeSequence` puts in
the `error=` part of the `Error` entry. -/
theorem write_failure_message :
    (write (simEnv [0x300, 0x0]) 0x10 0xAB (simIc 3)).1 =
      Except.error (Exn.IcException "IC WRITE was unsuccesful") ∧
    (write (simEnv [0x300, 0x0]) 0x10 0xAB (simIc 3)).1 ≠
      Except.error (Exn.IcException "IC WRITE was unsuccessful") ∧
    (executeSequence (simEnv [0x300, 0x300, 0x0])
      [(Operation.Write, Data.icData ⟨0x10, 0xAB⟩)] false (simIc 3)).1 =
      Except.ok [(Operation.Error, Data.str ("ic_regs::IC_SEQUENCE address=0x00000010 "
        ++ "data=0x000000ab serialId=1041:0 link=3, error='IC WRITE was unsuccesful'"))] := by
  refine ⟨rfl, ?_, rfl⟩
  intro h
  have hw : (write (simEnv [0x300, 0x0]) 0x10 0xAB (simIc 3)).1 =
      Except.error (Exn.IcException "IC WRITE was unsuccesful") := rfl
  rw [hw] at h
  injection h with h
  injection h with h
  exact absurd h (by decide)

/-- Claim C18, evaluated on the code.  The constructor from a link descriptor
writes 1 and then 0 to `SC_RESET` and then `0x3` to `IC_WR_CFG`, and makes no
other access.  The construction through `init` makes no access to `SC_RESET`:
its only access, when it does not throw, is the write of `0x3` to `IC_WR_CFG`,
as for link 3 of the simulated card. -/
theorem construction_accesses (env : Env) (link : AlfLink) (cardId : Nat) (linkId : Int)
    (mLink0 : AlfLink) :
    (ofLink env link).bar =
      [BarEvent.write env.SC_RESET.index 0x1, BarEvent.write env.SC_RESET.index 0x0,
       BarEvent.write ic_regs.IC_WR_CFG.index 0x3] ∧
    ((ofCard env cardId linkId mLink0).2.bar = [BarEvent.write ic_regs.IC_WR_CFG.index 0x3] ∨
      (ofCard env cardId linkId mLink0).2.bar = []) ∧
    ofCard (simEnv []) 0 3 (simLink 0) =
      (Except.ok (),
        { mLink := simLink 3, bar := [BarEvent.write ic_regs.IC_WR_CFG.index 0x3], lla := [] }) := by
  refine ⟨rfl, ?_, rfl⟩
  unfold ofCard init
  split
  · exact Or.inr rfl
  · exact Or.inl rfl

/-! ## The lock flag -/

/-- The channel check does not look at the lock calls. -/
theorem checkChannelSet_lla (env : Env) (s : Ic) (l : List LlaEvent) :
    checkChannelSet env { s with lla := l } =
      ((checkChannelSet env s).1, { (checkChannelSet env s).2 with lla := l }) := by
  unfold checkChannelSet
  simp only [barRead, setChannel, barWrite]
  split
  · rfl
  · split <;> rfl

theorem read_lla (env : Env) (address : Nat) (s : Ic) (l : List LlaEvent) :
    read env address { s with lla := l } =
      ((read env address s).1, { (read env address s).2 with lla := l }) := by
  unfold read
  rw [checkChannelSet_lla]
  rcases checkChannelSet env s with ⟨outcome, s0⟩
  cases outcome <;> rfl

theorem write_lla (env : Env) (address data : Nat) (s : Ic) (l : List LlaEvent) :
    write env address data { s with lla := l } =
      ((write env address data s).1, { (write env address data s).2 with lla := l }) := by
  unfold write
  rw [checkChannelSet_lla]
  rcases checkChannelSet env s with ⟨outcome, s0⟩
  cases outcome with
  | error e => rfl
  | ok u =>
    simp only [barWrite, barRead]
    split <;> rfl

theorem tryOperation_lla (env : Env) (operation : Operation) (data : Data) (s : Ic)
    (l : List LlaEvent) :
    tryOperation env operation data { s with lla := l } =
      ((tryOperation env operation data s).1,
        { (tryOperation env operation data s).2 with lla := l }) := by
  cases operation <;> cases data <;>
    simp [tryOperation, getIcData, readIcData, writeIcData, read_lla, write_lla]

/-- The loop does not look at the lock calls. -/
theorem executeLoop_lla (env : Env) :
    ∀ (ops ret : List (Operation × Data)) (s : Ic) (l : List LlaEvent),
      executeLoop env ops ret { s with lla := l } =
        ((executeLoop env ops ret s).1, { (executeLoop env ops ret s).2 with lla := l }) := by
  intro ops
  induction ops with
  | nil =>
    intro ret s l
    rfl
  | cons x rest ih =>
    intro ret s l
    obtain ⟨operation, data⟩ := x
    simp only [executeLoop]
    rw [tryOperation_lla]
    rcases tryOperation env operation data s with ⟨outcome, s1⟩
    cases outcome with
    | ok out => exact ih _ s1 l
    | error e =>
      cases e with
      | bad_get => rfl
      | IcException what =>
        simp only
        cases getIcData data <;> rfl

/-- The loop leaves the lock calls as they were. -/
theorem executeLoop_keeps_lla (env : Env) (ops ret : List (Operation × Data)) (s : Ic) :
    (executeLoop env ops ret s).2.lla = s.lla := by
  have h := executeLoop_lla env ops ret s s.lla
  have hs : ({ s with lla := s.lla } : Ic) = s := rfl
  rw [hs] at h
  exact (congrArg (fun p => p.2.lla) h)

/-- Claim C19.  The device answers a read from the register accesses made so
far, of which the lock calls are no part.  Then `executeSequence` with
`lock = true` and with `lock = false` return the same outcome, leave the same
register log and the same link descriptor, and with `lock = false` the lock
session sees no call. -/
theorem lock_flag_does_not_influence (env : Env) (ops : List (Operation × Data)) (s : Ic) :
    (executeSequence env ops true s).1 = (executeSequence env ops false s).1 ∧
    (executeSequence env ops true s).2.bar = (executeSequence env ops false s).2.bar ∧
    (executeSequence env ops true s).2.mLink = (executeSequence env ops false s).2.mLink ∧
    (executeSequence env ops false s).2.lla = s.lla := by
  have hc := checkChannelSet_lla env s (s.lla ++ [LlaEvent.start])
  have hkeep := (checkChannelSet_frame env s).2.2.1
  unfold executeSequence
  simp only [if_true, Bool.false_eq_true, if_false, llaStart]
  rw [hc]
  generalize checkChannelSet env s = p at hkeep
  obtain ⟨outcome, s1⟩ := p
  simp only at hkeep
  cases outcome with
  | error e =>
    cases e with
    | bad_get => exact ⟨rfl, rfl, rfl, hkeep⟩
    | IcException what => exact ⟨rfl, rfl, rfl, hkeep⟩
  | ok u =>
    simp only
    rw [executeLoop_lla]
    have hloop := executeLoop_keeps_lla env ops [] s1
    generalize executeLoop env ops [] s1 = q at hloop
    obtain ⟨result, s2⟩ := q
    simp only at hloop
    cases result with
    | error e => exact ⟨rfl, rfl, rfl, by rw [← hkeep, ← hloop]⟩
    | ok ret => exact ⟨rfl, rfl, rfl, by rw [← hkeep, ← hloop]⟩

/-! ## The frame of a transaction -/

theorem lastWrite_cons_write (index i value : Nat) (rest : List BarEvent) :
    lastWrite index (BarEvent.write i value :: rest) =
      match lastWrite index rest with
      | some later => some later
      | none => if i = index then some value else none := rfl

theorem lastWrite_cons_read (index i value : Nat) (rest : List BarEvent) :
    lastWrite index (BarEvent.read i value :: rest) = lastWrite index rest := rfl

theorem lastWrite_append (index : Nat) (l r : List BarEvent) :
    lastWrite index (l ++ r) =
      match lastWrite index r with
      | some later => some later
      | none => lastWrite index l := by
  induction l with
  | nil =>
    rw [List.nil_append]
    cases lastWrite index r <;> rfl
  | cons e rest ih =>
    cases e with
    | write i value =>
      rw [List.cons_append, lastWrite_cons_write, lastWrite_cons_write, ih]
      cases lastWrite index r <;> rfl
    | read i value =>
      rw [List.cons_append, lastWrite_cons_read, lastWrite_cons_read, ih]

theorem framed_refl (env : Env) (s : Ic) : framed env s s :=
  ⟨rfl, [], by simp, by simp, Or.inl rfl⟩

theorem framed_trans (env : Env) (s t u : Ic) (hst : framed env s t) (htu : framed env t u) :
    framed env s u := by
  obtain ⟨hlink1, ev1, hbar1, hw1, hlast1⟩ := hst
  obtain ⟨hlink2, ev2, hbar2, hw2, hlast2⟩ := htu
  refine ⟨by rw [hlink2, hlink1], ev1 ++ ev2, by rw [hbar2, hbar1, List.append_assoc], ?_, ?_⟩
  · intro index value hmem
    rcases List.mem_append.1 hmem with h | h
    · exact hw1 index value h
    · exact hw2 index value h
  · rw [lastWrite_append]
    rcases hlast2 with h | h
    · rw [h]
      exact hlast1
    · rw [h]
      exact Or.inr rfl

/-- A state that differs from a framed one in the lock calls is framed. -/
theorem framed_of_same (env : Env) (s t u : Ic) (h : framed env s t)
    (hlink : u.mLink = t.mLink) (hbar : u.bar = t.bar) : framed env s u := by
  obtain ⟨hl, ev, hb, hw, hlast⟩ := h
  exact ⟨by rw [hlink, hl], ev, by rw [hbar, hb], hw, hlast⟩

theorem checkChannelSet_framed (env : Env) (hd : env.registersDistinct) (s : Ic) :
    framed env s (checkChannelSet env s).2 := by
  obtain ⟨hcmd, hcfg, hreset, -, -⟩ := hd
  unfold checkChannelSet
  split
  · exact framed_refl env s
  · dsimp only
    split
    · refine ⟨rfl, [BarEvent.read env.SWT_MON.index
          (env.readRegister s.bar env.SWT_MON.index % 4294967296),
        BarEvent.write env.SC_LINK.index
          (toUInt32 (s.mLink.serialId.endpoint * 12 + s.mLink.linkId))], ?_, ?_, ?_⟩
      · simp [setChannel, barWrite, barRead]
      · intro index value hmem
        simp only [List.mem_cons, List.mem_singleton, List.not_mem_nil, or_false,
          BarEvent.write.injEq, reduceCtorEq, false_or] at hmem
        obtain ⟨hindex, -⟩ := hmem
        rw [hindex]
        exact ⟨Or.inl rfl, hcfg, hreset⟩
      · left
        simp [lastWrite, hcmd]
    · refine ⟨rfl, [BarEvent.read env.SWT_MON.index
          (env.readRegister s.bar env.SWT_MON.index % 4294967296)], ?_, ?_, ?_⟩
      · simp [barRead]
      · intro index value hmem
        simp at hmem
      · left
        simp [lastWrite]

/-- The writes of a transaction proper go to `IC_WR_DATA` and then to
`IC_WR_CMD`, the last one with 0. -/
theorem transaction_framed (env : Env) (hd : env.registersDistinct) (s : Ic)
    (word c1 c2 status : Nat) (extra : List BarEvent)
    (hextra : extra = [] ∨ extra = [BarEvent.write ic_regs.IC_WR_CMD.index c2,
      BarEvent.write ic_regs.IC_WR_CMD.index 0x0]) :
    framed env s { s with bar := s.bar ++
      ([BarEvent.write ic_regs.IC_WR_DATA.index word,
        BarEvent.write ic_regs.IC_WR_CMD.index 0x1,
        BarEvent.write ic_regs.IC_WR_CMD.index 0x0,
        BarEvent.write ic_regs.IC_WR_CMD.index c1,
        BarEvent.write ic_regs.IC_WR_CMD.index 0x0] ++ extra ++
        [BarEvent.read ic_regs.IC_RD_DATA.index status]) } := by
  obtain ⟨-, -, -, hdata, hcmd⟩ := hd
  have hcfg1 : ic_regs.IC_WR_DATA.index ≠ ic_regs.IC_WR_CFG.index := by decide
  have hcfg2 : ic_regs.IC_WR_CMD.index ≠ ic_regs.IC_WR_CFG.index := by decide
  refine ⟨rfl, _, rfl, ?_, ?_⟩
  · intro index value hmem
    have hcase : index = ic_regs.IC_WR_DATA.index ∨ index = ic_regs.IC_WR_CMD.index := by
      rcases hextra with rfl | rfl <;>
        simp only [List.append_nil, List.cons_append, List.nil_append, List.mem_cons,
          List.mem_singleton, List.not_mem_nil, or_false, BarEvent.write.injEq,
          false_or] at hmem <;>
        aesop
    rcases hcase with rfl | rfl
    · exact ⟨Or.inr (Or.inl rfl), hcfg1, fun h => hdata h.symm⟩
    · exact ⟨Or.inr (Or.inr rfl), hcfg2, fun h => hcmd h.symm⟩
  · right
    rcases hextra with rfl | rfl <;> simp [lastWrite]

theorem read_framed (env : Env) (hd : env.registersDistinct) (address : Nat) (s : Ic) :
    framed env s (read env address s).2 := by
  by_cases h : s.mLink.linkId = -1
  · rw [read_unset env address s h]
    exact framed_refl env s
  · have hsel := (checkChannelSet_ok_iff env s).2 h
    obtain ⟨status, hr⟩ := read_of_selected env address s _ (checkChannelSet_eq_of_ok env s hsel)
    refine framed_trans env s _ _ (checkChannelSet_framed env hd s) ?_
    rw [hr]
    exact transaction_framed env hd _ (address &&& 0xffff) 0x8 0x2 status _ (Or.inr rfl)

theorem write_framed (env : Env) (hd : env.registersDistinct) (address data : Nat) (s : Ic) :
    framed env s (write env address data s).2 := by
  by_cases h : s.mLink.linkId = -1
  · rw [write_unset env address data s h]
    exact framed_refl env s
  · have hsel := (checkChannelSet_ok_iff env s).2 h
    obtain ⟨status, -, hw, -⟩ :=
      write_of_selected env address data s _ (checkChannelSet_eq_of_ok env s hsel)
    refine framed_trans env s _ _ (checkChannelSet_framed env hd s) ?_
    rw [hw]
    exact transaction_framed env hd _ _ 0x4 0x0 status [] (Or.inl rfl)

theorem tryOperation_framed (env : Env) (hd : env.registersDistinct) (operation : Operation)
    (data : Data) (s : Ic) : framed env s (tryOperation env operation data s).2 := by
  cases operation <;> cases data <;>
    simp only [tryOperation, getIcData, readIcData, writeIcData, if_true, if_false,
      reduceCtorEq] <;>
    first
      | exact framed_refl env s
      | exact read_framed env hd _ s
      | exact write_framed env hd _ _ s

theorem executeLoop_framed (env : Env) (hd : env.registersDistinct) :
    ∀ (ops ret : List (Operation × Data)) (s : Ic), framed env s (executeLoop env ops ret s).2 := by
  intro ops
  induction ops with
  | nil =>
    intro ret s
    exact framed_refl env s
  | cons x rest ih =>
    intro ret s
    obtain ⟨operation, data⟩ := x
    have hstep := tryOperation_framed env hd operation data s
    simp only [executeLoop]
    generalize tryOperation env operation data s = p at hstep
    obtain ⟨outcome, s1⟩ := p
    cases outcome with
    | ok out => exact framed_trans env s s1 _ hstep (ih _ s1)
    | error e =>
      cases e with
      | bad_get => exact hstep
      | IcException what =>
        simp only
        cases getIcData data <;> exact hstep

theorem executeSequence_framed (env : Env) (hd : env.registersDistinct)
    (ops : List (Operation × Data)) (lock : Bool) (s : Ic) :
    framed env s (executeSequence env ops lock s).2 := by
  have hstart : framed env s (if lock then llaStart s else s) := by
    cases lock
    · exact framed_refl env s
    · exact framed_of_same env s s _ (framed_refl env s) rfl rfl
  have hcheck := checkChannelSet_framed env hd (if lock then llaStart s else s)
  unfold executeSequence
  simp only
  generalize checkChannelSet env (if lock then llaStart s else s) = p at hcheck
  obtain ⟨outcome, s1⟩ := p
  have hs1 := framed_trans env s _ s1 hstart hcheck
  cases outcome with
  | error e =>
    cases e with
    | bad_get => exact hs1
    | IcException what => exact hs1
  | ok u =>
    simp only
    have hloop := executeLoop_framed env hd ops [] s1
    generalize executeLoop env ops [] s1 = q at hloop
    obtain ⟨result, s2⟩ := q
    have hs2 := framed_trans env s s1 s2 hs1 hloop
    cases result with
    | error e => exact hs2
    | ok ret =>
      cases lock
      · exact hs2
      · exact framed_of_same env s s2 _ hs2 rfl rfl

/-- Claim C20.  With the registers the source names being distinct words,
`checkChannelSet`, `read`, `write` and `executeSequence` each leave the link
id as it was, only append to the register log, write to no word other than
`SC_LINK`, `IC_WR_DATA` and `IC_WR_CMD`, so never to `IC_WR_CFG` or `SC_RESET`,
and the last write they make to `IC_WR_CMD`, if they make one, is of 0. -/
theorem transactions_framed (env : Env) (hd : env.registersDistinct) (s : Ic) :
    framed env s (checkChannelSet env s).2 ∧
    (∀ address, framed env s (read env address s).2) ∧
    (∀ address data, framed env s (write env address data s).2) ∧
    (∀ ops lock, framed env s (executeSequence env ops lock s).2) :=
  ⟨checkChannelSet_framed env hd s, fun a => read_framed env hd a s,
    fun a d => write_framed env hd a d s,
    fun ops lock => executeSequence_framed env hd ops lock s⟩

/-- The registers of the simulated card are distinct words. -/
theorem transactions_framed_witness :
    (simEnv [0x500, 0x300, 0x80000000]).registersDistinct ∧
    framed (simEnv [0x500, 0x300, 0x80000000]) (simIc 3)
      (executeSequence (simEnv [0x500, 0x300, 0x80000000])
        [(Operation.Write, Data.icData ⟨0x10, 0xAB⟩)] true (simIc 3)).2 :=
  have hd : (simEnv [0x500, 0x300, 0x80000000]).registersDistinct := by
    unfold Env.registersDistinct
    decide
  ⟨hd, (transactions_framed (simEnv [0x500, 0x300, 0x80000000]) hd (simIc 3)).2.2.2 _ _⟩

end Ic

end o2.alf
